import Mathlib

/-!
# Verification of the go-innodb page/record decoder

A shallow embedding of the go-innodb InnoDB page parser (FIL envelope,
index-page record walker, compact record decoder, column decoders,
compressed-page shim, schema table definitions) together with theorems
settling the specification claims.

Conventions of the embedding:
* a Go `[]byte` is a `List Nat` (each entry a byte value);
* Go `int` positions/offsets are `Int` (Go ints are 64-bit signed and the
  code manipulates possibly-negative offsets);
* Go `string` values produced by the decoders are byte sequences
  (`List Nat`), since Go strings are immutable byte strings and all
  comparisons in the source are byte-wise;
* fallible Go functions returning `(T, error)` become `Except String T`;
  a Go runtime panic (index/slice out of range) is modelled as an
  `Except.error` whose message starts with `"panic:"`;
* Go `uint64` arithmetic that may overflow is mirrored with `% 2^64`.
-/

namespace GoInnodb

/-- Byte access `p[i]` for a non-negative in-bounds index; callers perform
the bounds checks the Go source performs.  Out-of-range access yields `0`
(used only under bounds checks mirroring the source). -/
def byteAt (p : List Nat) (i : Int) : Nat := p.getD i.toNat 0

/-- The Go slice expression `p[lo : lo+n]` (used only where the source has
established `0 ≤ lo` and `lo + n ≤ len p`): the `n` bytes starting at `lo`. -/
def readSlice (p : List Nat) (lo : Int) (n : Nat) : List Nat :=
  (List.range n).map (fun k : Nat => byteAt p (lo + (k : Int)))

/-- ASCII bytes of a Lean string literal (for stating results about the
byte strings the Go code produces). -/
def strBytes (s : String) : List Nat := s.data.map Char.toNat

/-! ## format package: sizes and constants (types.go) -/

def PageSize : Nat := 16 * 1024
def FilHeaderSize : Nat := 38
def FilTrailerSize : Nat := 8
def RecordHeaderSize : Nat := 5
def SystemRecordBytes : Nat := 8
def PageDirSlotSize : Nat := 2
/-- Index (page) header 36 bytes + FSEG header 20 bytes. -/
def PageHeaderSize : Nat := 56

def PageTypeIndex : Nat := 17855

/-- Record types are the low 3 bits of the second header byte; the Go
`RecordType` is a `uint8`, so we keep the raw value. -/
def RecConventional : Nat := 0
def RecNodePointer : Nat := 1
def RecInfimum : Nat := 2
def RecSupremum : Nat := 3

/-! ## endian.go: big-endian readers with bounds checks -/

def be16 (b : List Nat) (off : Int) : Except String Nat :=
  if off < 0 ∨ off + 2 > (b.length : Int) then .error "be16 out of bounds"
  else .ok (byteAt b off * 256 + byteAt b (off + 1))

def be32 (b : List Nat) (off : Int) : Except String Nat :=
  if off < 0 ∨ off + 4 > (b.length : Int) then .error "be32 out of bounds"
  else .ok (byteAt b off * 2^24 + byteAt b (off + 1) * 2^16 +
            byteAt b (off + 2) * 2^8 + byteAt b (off + 3))

def be64 (b : List Nat) (off : Int) : Except String Nat :=
  if off < 0 ∨ off + 8 > (b.length : Int) then .error "be64 out of bounds"
  else .ok (byteAt b off * 2^56 + byteAt b (off + 1) * 2^48 +
            byteAt b (off + 2) * 2^40 + byteAt b (off + 3) * 2^32 +
            byteAt b (off + 4) * 2^24 + byteAt b (off + 5) * 2^16 +
            byteAt b (off + 6) * 2^8 + byteAt b (off + 7))

/-- `v, _ := be16(...)`: the Go call sites that discard the error keep the
zero value on failure. -/
def be16D (b : List Nat) (off : Int) : Nat := (be16 b off).toOption.getD 0
def be32D (b : List Nat) (off : Int) : Nat := (be32 b off).toOption.getD 0
def be64D (b : List Nat) (off : Int) : Nat := (be64 b off).toOption.getD 0

/-! ## schema package: column and table definitions -/

/-- `schema.ColumnType` (a Go string constant; one constructor per constant). -/
inductive CType where
  | typeTinyInt | typeSmallInt | typeMediumInt | typeInt | typeBigInt
  | typeChar | typeVarchar | typeText | typeTinyText | typeMediumText | typeLongText
  | typeBinary | typeVarBinary | typeBlob | typeTinyBlob | typeMediumBlob | typeLongBlob
  | typeDate | typeTime | typeDateTime | typeTimestamp | typeYear
  | typeDecimal | typeNumeric | typeFloat | typeDouble
  | typeBit | typeEnum | typeSet | typeBoolean | typeBool | typeJSON
  | typeRowID
deriving DecidableEq, Repr

/-- `schema.Column` (fields used by the decoders). -/
structure Column where
  name : String
  type : CType
  ordinal : Nat := 0
  length : Nat := 0
  precision : Nat := 0
  scale : Nat := 0
  nullable : Bool := false
  unsigned : Bool := false
  charset : String := ""
  isPrimaryKey : Bool := false
deriving DecidableEq, Repr

/-- `Column.IsVariableLength` from schema/column.go. -/
def Column.IsVariableLength (c : Column) : Bool :=
  match c.type with
  | .typeVarchar | .typeVarBinary
  | .typeText | .typeTinyText | .typeMediumText | .typeLongText
  | .typeBlob | .typeTinyBlob | .typeMediumBlob | .typeLongBlob
  | .typeJSON => true
  | .typeChar | .typeBinary =>
      c.charset != "" && c.charset != "latin1" && c.charset != "ascii"
  | _ => false

/-- `schema.TableDef`: columns plus the cached metadata the Go struct
maintains (the caches are ordinary fields there, updated by `AddColumn`). -/
structure TableDef where
  name : String
  columns : List Column
  columnMap : List (String × Column)
  primaryKeys : List String
  nullableColumns : List Column
  varLenColumns : List Column
  primaryKeyColumns : List Column
  nullableCount : Nat
  hasNullableColumn : Bool
  hasVarLenColumn : Bool
deriving DecidableEq, Repr

def NewTableDef (name : String) : TableDef :=
  ⟨name, [], [], [], [], [], [], 0, false, false⟩

/-- `TableDef.AddColumn`: reject duplicate names (via the column map), issue
the next dense ordinal, append to the cached lists. -/
def TableDef.AddColumn (td : TableDef) (col : Column) : Except String TableDef :=
  if (List.lookup col.name td.columnMap).isSome then
    .error ("column " ++ col.name ++ " already exists")
  else
    let col' := { col with ordinal := td.columns.length }
    .ok { td with
      columns := td.columns ++ [col'],
      columnMap := td.columnMap ++ [(col'.name, col')],
      nullableColumns :=
        if col'.nullable then td.nullableColumns ++ [col'] else td.nullableColumns,
      nullableCount :=
        if col'.nullable then td.nullableCount + 1 else td.nullableCount,
      hasNullableColumn := td.hasNullableColumn || col'.nullable,
      varLenColumns :=
        if col'.IsVariableLength then td.varLenColumns ++ [col'] else td.varLenColumns,
      hasVarLenColumn := td.hasVarLenColumn || col'.IsVariableLength }

/-- `TableDef.NullBitmapSize` = ceil(nullableCount / 8). -/
def TableDef.NullBitmapSize (td : TableDef) : Nat := (td.nullableCount + 7) / 8

/-- `TableDef.GetPrimaryKeyVarLenColumns`. -/
def TableDef.GetPrimaryKeyVarLenColumns (td : TableDef) : List Column :=
  td.primaryKeyColumns.filter (·.IsVariableLength)

/-! ## column package: typed values and the per-family parsers -/

/-- A decoded column value (Go `interface{}`): the closed set of value kinds
the three parsers produce.  Signed integer widths all land in `Int`,
unsigned in `Nat`; Go strings are byte lists. -/
inductive Value where
  | int (i : Int)
  | uint (n : Nat)
  | str (s : List Nat)
  | bytes (b : List Nat)
  | boolean (b : Bool)
deriving DecidableEq, Repr

/-- Two's-complement reading of a `w`-bit unsigned value (Go's `intN(v)` cast). -/
def toSigned (w : Nat) (v : Nat) : Int :=
  if v < 2 ^ (w - 1) then (v : Int) else (v : Int) - 2 ^ w

/-- Go `strings.TrimRight(s, " ")`: drop all trailing space bytes. -/
def trimRightSpaces (s : List Nat) : List Nat :=
  (s.reverse.dropWhile (· == 32)).reverse

/-- ASCII decimal rendering of `n`, zero-padded to at least `w` digits
(Go `fmt.Sprintf` with a `%0wd` verb). -/
def padNum (w n : Nat) : List Nat :=
  let s := strBytes (toString n)
  List.replicate (w - s.length) 48 ++ s

/-- Go `uint64` subtraction (wrapping). -/
def sub64 (a b : Nat) : Nat := ((a % 2 ^ 64) + 2 ^ 64 - (b % 2 ^ 64)) % 2 ^ 64

/-- The packed-value accumulation loop shared by the DATETIME/TIME/fraction
readers: `for i := 0..n-1 { packed = packed<<8 | input[offset+n-1-i] }` on a
`uint64`, i.e. the byte at `offset` is least significant. -/
def packLE (p : List Nat) (off : Int) : Nat → Nat
  | 0 => 0
  | n + 1 => (packLE p off n ||| byteAt p (off + (n : Int)) <<< (8 * n)) % 2 ^ 64

/-- The fractional-seconds normalization loop: `for prec < 6 { usec *= 100;
prec += 2 }` on a `uint64`. -/
def normFrac (usec : Nat) (prec : Nat) : Nat :=
  if prec < 6 then normFrac (usec * 100 % 2 ^ 64) (prec + 2) else usec
termination_by 6 - prec
decreasing_by omega

/-- `time.Unix(v, 0).UTC().Format("2006-01-02 15:04:05")` for the TIMESTAMP
parser: proleptic Gregorian civil date from days since the Unix epoch. -/
def formatUnix (v : Nat) : List Nat :=
  let days := v / 86400
  let rem := v % 86400
  let z := days + 719468
  let era := z / 146097
  let doe := z % 146097
  let yoe := (doe - doe / 1460 + doe / 36524 - doe / 146097) / 365
  let doy := doe - (365 * yoe + yoe / 4 - yoe / 100)
  let mp := (5 * doy + 2) / 153
  let d := doy - (153 * mp + 2) / 5 + 1
  let m := if mp < 10 then mp + 3 else mp - 9
  let y := yoe + era * 400 + (if m ≤ 2 then 1 else 0)
  padNum 4 y ++ strBytes "-" ++ padNum 2 m ++ strBytes "-" ++ padNum 2 d ++
  strBytes " " ++ padNum 2 (rem / 3600) ++ strBytes ":" ++
  padNum 2 (rem % 3600 / 60) ++ strBytes ":" ++ padNum 2 (rem % 60)

/-- Go `fmt.Sprintf(".%06d", fraction)[:precision+1]` (the byte-slice of the
formatted string; slicing past its end is a Go panic). -/
def fracString (fraction precision : Nat) : Except String (List Nat) :=
  let s := strBytes "." ++ padNum 6 fraction
  if precision + 1 > s.length then .error "panic: slice out of range"
  else .ok (s.take (precision + 1))

/-! ### BaseParser primitive readers (column/parser.go) -/

/-- `BaseParser.readBytes`. -/
def readBytes (input : List Nat) (offset : Int) (length : Nat) : Except String (List Nat) :=
  if offset + (length : Int) > (input.length : Int) then .error "short read"
  else if offset < 0 then .error "panic: slice out of range"
  else .ok (readSlice input offset length)

/-- `BaseParser.readUint8`. -/
def readUint8 (input : List Nat) (offset : Int) : Except String Nat :=
  if offset + 1 > (input.length : Int) then .error "short read"
  else if offset < 0 then .error "panic: index out of range"
  else .ok (byteAt input offset)

/-- `BaseParser.readUint16` (delegates to the big-endian reader). -/
def readUint16 (input : List Nat) (offset : Int) : Except String Nat := be16 input offset

/-- `BaseParser.readUint32`. -/
def readUint32 (input : List Nat) (offset : Int) : Except String Nat := be32 input offset

/-- `BaseParser.readUint64`. -/
def readUint64 (input : List Nat) (offset : Int) : Except String Nat := be64 input offset

/-- `BaseParser.readInt8`: XOR the sign bit, then two's-complement. -/
def readInt8 (input : List Nat) (offset : Int) : Except String Int :=
  (readUint8 input offset).map (fun v => toSigned 8 (v ^^^ 0x80))

/-- `BaseParser.readInt16`. -/
def readInt16 (input : List Nat) (offset : Int) : Except String Int :=
  (readUint16 input offset).map (fun v => toSigned 16 (v ^^^ 0x8000))

/-- `BaseParser.readInt32`. -/
def readInt32 (input : List Nat) (offset : Int) : Except String Int :=
  (readUint32 input offset).map (fun v => toSigned 32 (v ^^^ 0x80000000))

/-- `BaseParser.readInt64`. -/
def readInt64 (input : List Nat) (offset : Int) : Except String Int :=
  (readUint64 input offset).map (fun v => toSigned 64 (v ^^^ 0x8000000000000000))

/-- `BaseParser.readMediumInt`: NOTE the Go source assembles the three bytes
with `input[offset] | input[offset+1]<<8 | input[offset+2]<<16`, i.e. it
reads them little-endian, then XORs `0x800000` and sign-extends to 32 bits. -/
def readMediumInt (input : List Nat) (offset : Int) : Except String Int :=
  if offset + 3 > (input.length : Int) then .error "short read"
  else if offset < 0 then .error "panic: index out of range"
  else
    let val := byteAt input offset ||| byteAt input (offset + 1) <<< 8 |||
               byteAt input (offset + 2) <<< 16
    let val := val ^^^ 0x800000
    let val := if val &&& 0x800000 ≠ 0 then val ||| 0xFF000000 else val
    .ok (toSigned 32 val)

/-- `BaseParser.readUnsignedMediumInt` (same little-endian assembly). -/
def readUnsignedMediumInt (input : List Nat) (offset : Int) : Except String Nat :=
  if offset + 3 > (input.length : Int) then .error "short read"
  else if offset < 0 then .error "panic: index out of range"
  else
    .ok (byteAt input offset ||| byteAt input (offset + 1) <<< 8 |||
         byteAt input (offset + 2) <<< 16)

/-! ### IntParser (column/int_parser.go) -/

/-- `IntParser.Parse`: returns the value and the number of bytes consumed. -/
def IntParserParse (input : List Nat) (offset : Int) (col : Column) :
    Except String (Value × Nat) :=
  match col.type with
  | .typeTinyInt =>
      if col.unsigned then (readUint8 input offset).map (fun v => (.uint v, 1))
      else (readInt8 input offset).map (fun v => (.int v, 1))
  | .typeSmallInt | .typeYear =>
      if col.unsigned then (readUint16 input offset).map (fun v => (.uint v, 2))
      else if col.type = .typeYear then
        (readUint8 input offset).map (fun v =>
          if v = 0 then (.uint 0, 1) else (.uint (v + 1900), 1))
      else (readInt16 input offset).map (fun v => (.int v, 2))
  | .typeMediumInt =>
      if col.unsigned then (readUnsignedMediumInt input offset).map (fun v => (.uint v, 3))
      else (readMediumInt input offset).map (fun v => (.int v, 3))
  | .typeInt =>
      if col.unsigned then (readUint32 input offset).map (fun v => (.uint v, 4))
      else (readInt32 input offset).map (fun v => (.int v, 4))
  | .typeBigInt =>
      if col.unsigned then (readUint64 input offset).map (fun v => (.uint v, 8))
      else (readInt64 input offset).map (fun v => (.int v, 8))
  | .typeBoolean | .typeBool =>
      (readUint8 input offset).map (fun v => (.boolean (v != 0), 1))
  | _ => .error "unsupported column type"

/-! ### StringParser (string_parser.go) -/

/-- CHAR maximum byte width after the charset multiplier. -/
def charFixedLen (col : Column) : Nat :=
  if col.charset = "utf8mb4" then col.length * 4
  else if col.charset = "utf8" then col.length * 3
  else col.length

/-- `StringParser.Parse`. -/
def StringParserParse (input : List Nat) (offset : Int) (col : Column) (varLen : Nat) :
    Except String (Value × Nat) :=
  match col.type with
  | .typeChar =>
      if col.IsVariableLength ∧ 0 < varLen then
        (readBytes input offset varLen).map
          (fun data => (.str (trimRightSpaces data), varLen))
      else
        let length := charFixedLen col
        (readBytes input offset length).map
          (fun data => (.str (trimRightSpaces data), length))
  | .typeVarchar | .typeText | .typeTinyText | .typeMediumText | .typeLongText =>
      if varLen = 0 then .ok (.str [], 0)
      else (readBytes input offset varLen).map (fun data => (.str data, varLen))
  | .typeBinary =>
      (readBytes input offset col.length).map (fun data => (.bytes data, col.length))
  | .typeVarBinary | .typeBlob | .typeTinyBlob | .typeMediumBlob | .typeLongBlob =>
      if varLen = 0 then .ok (.bytes [], 0)
      else (readBytes input offset varLen).map (fun data => (.bytes data, varLen))
  | _ => .error "unsupported column type"

/-! ### DateTimeParser (datetime_parser.go) -/

/-- `DateTimeParser.readFraction`. -/
def readFraction (input : List Nat) (offset : Int) (precision : Nat) :
    Except String Nat :=
  if precision = 0 then .ok 0
  else
    let bufsz := (precision + 1) / 2
    if offset + (bufsz : Int) > (input.length : Int) then .error "short read for fraction"
    else if offset < 0 then .error "panic: index out of range"
    else .ok (normFrac (packLE input offset bufsz) precision)

/-- `DateTimeParser.Parse`. -/
def DateTimeParserParse (input : List Nat) (offset : Int) (col : Column) :
    Except String (Value × Nat) :=
  match col.type with
  | .typeDate =>
      -- read unsigned 3-byte (little-endian, see readUnsignedMediumInt),
      -- XOR 0x800000, then day = v & 0x1F, month = (v>>5) & 0x0F, year = v>>9
      (readUnsignedMediumInt input offset).bind (fun val0 =>
        let v := val0 ^^^ 0x800000
        let day := v &&& 0x1F
        let v1 := v >>> 5
        let month := v1 &&& 0x0F
        let year := v1 >>> 4
        if year = 0 ∧ month = 0 ∧ day = 0 then .ok (.str (strBytes "0000-00-00"), 3)
        else .ok (.str (padNum 4 year ++ strBytes "-" ++ padNum 2 month ++
                        strBytes "-" ++ padNum 2 day), 3))
  | .typeTimestamp =>
      (readUint32 input offset).bind (fun v =>
        if v = 0 then .ok (.str (strBytes "0000-00-00 00:00:00"), 4)
        else .ok (.str (formatUnix v), 4))
  | .typeDateTime =>
      if offset + 5 > (input.length : Int) then .error "short read for DATETIME"
      else if offset < 0 then .error "panic: index out of range"
      else
        let packed := packLE input offset 5
        let second := packed &&& 0x3F
        let p1 := packed >>> 6
        let minute := p1 &&& 0x3F
        let p2 := p1 >>> 6
        let hour := p2 &&& 0x1F
        let p3 := p2 >>> 5
        let day := p3 &&& 0x1F
        let p4 := p3 >>> 5
        let yearMonth := p4 &&& 0x1FFFF
        let month := yearMonth % 13
        let year := yearMonth / 13
        (if 0 < col.precision then
          (readFraction input (offset + 5) col.precision).bind (fun fraction =>
            (if 0 < fraction then fracString fraction col.precision else .ok []).map
              (fun fsStr => (fsStr, 5 + (col.precision + 1) / 2)))
         else .ok (([] : List Nat), 5)).map (fun fb =>
          (.str (padNum 4 year ++ strBytes "-" ++ padNum 2 month ++ strBytes "-" ++
                 padNum 2 day ++ strBytes " " ++ padNum 2 hour ++ strBytes ":" ++
                 padNum 2 minute ++ strBytes ":" ++ padNum 2 second ++ fb.1), fb.2))
  | .typeTime =>
      let fracSize := (col.precision + 1) / 2
      let bufSize := 3 + fracSize
      if offset + (bufSize : Int) > (input.length : Int) then .error "short read for TIME"
      else if offset < 0 then .error "panic: index out of range"
      else
        let packed := packLE input offset bufSize
        let fracBits := fracSize * 8
        let fracMask := sub64 ((1 <<< fracBits) % 2 ^ 64) 1
        let signPos := fracBits + 23
        let signVal := (1 <<< signPos) % 2 ^ 64
        let isNegative := packed &&& signVal = 0
        let packed1 := if isNegative then sub64 signVal packed else packed
        let usec0 := packed1 &&& fracMask
        let packed2 := packed1 >>> fracBits
        let second := packed2 &&& 0x3F
        let p1 := packed2 >>> 6
        let minute := p1 &&& 0x3F
        let hour := (p1 >>> 6) &&& 0x3FF
        let usec := normFrac usec0 col.precision
        (if 0 < col.precision ∧ 0 < usec then fracString usec col.precision
         else .ok []).map (fun fs =>
          (.str ((if isNegative then strBytes "-" else []) ++ padNum 2 hour ++
                 strBytes ":" ++ padNum 2 minute ++ strBytes ":" ++ padNum 2 second ++
                 fs), bufSize))
  | .typeYear =>
      (readUint8 input offset).map (fun v =>
        if v = 0 then (.uint 0, 1) else (.uint (v + 1900), 1))
  | _ => .error "unsupported column type"

/-! ### factory (column/factory.go) -/

/-- `column.ParseColumn`: dispatch to the per-family parser by column type;
types without a parser fail with the unsupported-type error. -/
def ParseColumn (input : List Nat) (offset : Int) (col : Column) (varLen : Nat) :
    Except String (Value × Nat) :=
  match col.type with
  | .typeTinyInt | .typeSmallInt | .typeMediumInt | .typeInt | .typeBigInt
  | .typeYear | .typeBoolean | .typeBool =>
      IntParserParse input offset col
  | .typeChar | .typeVarchar
  | .typeText | .typeTinyText | .typeMediumText | .typeLongText
  | .typeBinary | .typeVarBinary
  | .typeBlob | .typeTinyBlob | .typeMediumBlob | .typeLongBlob =>
      StringParserParse input offset col varLen
  | .typeDate | .typeTime | .typeDateTime | .typeTimestamp =>
      DateTimeParserParse input offset col
  | _ => .error "unsupported column type"

/-- Static byte budget of a column parse: every byte `ParseColumn` inspects
lies in `[offset, offset + colReadWidth col varLen)`, and on success the
returned `bytesRead` equals it. -/
def colReadWidth (col : Column) (varLen : Nat) : Nat :=
  match col.type with
  | .typeTinyInt => 1
  | .typeSmallInt => 2
  | .typeYear => if col.unsigned then 2 else 1
  | .typeMediumInt => 3
  | .typeInt => 4
  | .typeBigInt => 8
  | .typeBoolean | .typeBool => 1
  | .typeChar => if col.IsVariableLength ∧ 0 < varLen then varLen else charFixedLen col
  | .typeVarchar | .typeText | .typeTinyText | .typeMediumText | .typeLongText => varLen
  | .typeBinary => col.length
  | .typeVarBinary | .typeBlob | .typeTinyBlob | .typeMediumBlob | .typeLongBlob => varLen
  | .typeDate => 3
  | .typeTimestamp => 4
  | .typeDateTime => 5 + (if 0 < col.precision then (col.precision + 1) / 2 else 0)
  | .typeTime => 3 + (col.precision + 1) / 2
  | _ => 0

/-! ## record package: record header, generic record, walker -/

/-- The 5-byte compact record header (record/header.go). -/
structure RecordHeader where
  flagsMinRec : Bool
  flagsDeleted : Bool
  numOwned : Nat
  heapNumber : Nat
  /-- Go field `Type` (a `RecordType`/`uint8`): the low 3 bits of byte 2. -/
  rtype : Nat
  /-- Go field `NextRecOffset`: `int(int16(nxtU))`, sign-extended. -/
  nextRecOffset : Int
deriving DecidableEq, Repr

/-- `record.ParseRecordHeader`. -/
def ParseRecordHeader (p : List Nat) (off : Int) : Except String RecordHeader :=
  if off + (RecordHeaderSize : Int) > (p.length : Int) then .error "short record header"
  else if off < 0 then .error "panic: index out of range"
  else
    let b1 := byteAt p off
    let flags := (b1 &&& 0xF0) >>> 4
    let nOwned := b1 &&& 0x0F
    let b2 := be16D p (off + 1)
    let rtype := b2 &&& 0x0007
    let heap := (b2 &&& 0xFFF8) >>> 3
    let nxtU := be16D p (off + 3)
    .ok { flagsMinRec := (flags &&& 0x1) != 0
          flagsDeleted := (flags &&& 0x2) != 0
          numOwned := nOwned
          heapNumber := heap
          rtype := rtype
          nextRecOffset := toSigned 16 nxtU }

/-- `record.GenericRecord` (column values as an association list in
insertion order; `none` is an explicit SQL NULL). -/
structure GenericRecord where
  pageNumber : Nat
  header : RecordHeader
  primaryKeyPos : Int
  data : List Nat
  values : List (String × Option Value)
deriving DecidableEq, Repr

/-- `GenericRecord.NextRecordPos`. -/
def GenericRecord.NextRecordPos (r : GenericRecord) : Int :=
  r.primaryKeyPos + r.header.nextRecOffset

/-- The record-data heuristic inside the walker loop (iter.go): size from
the next-record distance, 8 bytes for SUPREMUM, else up to 100 bytes. -/
def walkRecData (pageData : List Nat) (nextContent : Int) (hdr : RecordHeader) :
    List Nat :=
  let dataSize : Int :=
    if hdr.nextRecOffset > 0 ∧ hdr.nextRecOffset > (RecordHeaderSize : Int) then
      hdr.nextRecOffset - (RecordHeaderSize : Int)
    else if hdr.rtype = RecSupremum then 8
    else min 100 ((pageData.length : Int) - nextContent)
  if dataSize > 0 ∧ nextContent + dataSize ≤ (pageData.length : Int) then
    readSlice pageData nextContent dataSize.toNat
  else []

/-- The body of `record.WalkRecordsFromData`'s `for steps := 0; steps < max`
loop, with the remaining step budget as fuel; exhausting the budget falls
out of the loop and returns the accumulated records with a nil error. -/
def walkLoop (pageNo : Nat) (pageData : List Nat) :
    Nat → GenericRecord → List GenericRecord → Bool →
    Except String (List GenericRecord)
  | 0, _, out, _ => .ok out
  | fuel + 1, cur, out, skipSystem =>
    let nextContent := cur.NextRecordPos
    if cur.header.nextRecOffset = 0 then .ok out
    else if nextContent < ((FilHeaderSize + PageHeaderSize : Nat) : Int) ∨
            nextContent ≥ ((PageSize - FilTrailerSize : Nat) : Int) then
      .error ("next content position out of bounds: " ++ toString nextContent)
    else if nextContent - (RecordHeaderSize : Int) < 0 then
      .error "negative next header pos"
    else
      match ParseRecordHeader pageData (nextContent - (RecordHeaderSize : Int)) with
      | .error e => .error e
      | .ok hdr =>
        let recd : GenericRecord :=
          { pageNumber := pageNo, header := hdr, primaryKeyPos := nextContent,
            data := walkRecData pageData nextContent hdr, values := [] }
        if hdr.rtype = RecSupremum then
          .ok (if skipSystem then out else out ++ [recd])
        else walkLoop pageNo pageData fuel recd (out ++ [recd]) skipSystem

/-- `record.WalkRecordsFromData`. -/
def WalkRecordsFromData (pageNo : Nat) (pageData : List Nat)
    (infimum : GenericRecord) (max : Nat) (skipSystem : Bool) :
    Except String (List GenericRecord) :=
  walkLoop pageNo pageData max infimum (if skipSystem then [] else [infimum]) skipSystem

/-! ## compact record decoder (compact_parser.go) -/

/-- The inner loop of the NULL check: scan `NullableColumns()` with a running
index into the bitmap; a column is NULL when a nullable column of the same
name has its bit set. -/
def findNullBit : List Column → List Bool → String → Bool
  | [], _, _ => false
  | c :: cs, bm, name =>
      (c.name == name && bm.headD false) || findNullBit cs bm.tail name

/-- Step 1 of `CompactParser.ParseRecord`: the NULL bitmap.  Returns the
bitmap (one Bool per nullable column, LSB-first within each byte) and the
bitmap's byte size. -/
def parseNullBitmap (pageData : List Nat) (headerPos : Int) (td : TableDef)
    (isLeafPage : Bool) : Except String (List Bool × Int) :=
  if isLeafPage ∧ td.hasNullableColumn then
    let size := td.NullBitmapSize
    let nullBitmapPos := headerPos - (size : Int)
    if nullBitmapPos < 0 then .error "invalid NULL bitmap position"
    else if headerPos > (pageData.length : Int) then .error "panic: slice out of range"
    else if td.nullableCount < td.nullableColumns.length then
      -- the Go loop writes nullBitmap[idx] for each nullable column and
      -- would index past the make([]bool, NullableColumnCount()) buffer
      .error "panic: index out of range"
    else
      let nullBytes := readSlice pageData nullBitmapPos size
      let bm := (List.range td.nullableColumns.length).map (fun idx =>
        if idx / 8 < nullBytes.length then
          (nullBytes.getD (idx / 8) 0 &&& (1 <<< (idx % 8))) != 0
        else false)
      .ok (bm ++ List.replicate (td.nullableCount - td.nullableColumns.length) false,
           (size : Int))
  else .ok (List.replicate td.nullableCount false, 0)

/-- `needsTwoByteLength`. -/
def needsTwoByteLength (col : Column) (firstByte : Nat) : Bool :=
  if 127 < firstByte then
    match col.type with
    | .typeText | .typeMediumText | .typeLongText
    | .typeBlob | .typeMediumBlob | .typeLongBlob => true
    | .typeVarchar | .typeVarBinary => decide (255 < charFixedLen col)
    | _ => false
  else false

/-- Step 2 of `CompactParser.ParseRecord`: the variable-length header loop.
Walks the variable-length columns in forward order while moving the byte
cursor backward.  NOTE: the Go source APPENDS decoded lengths but PREPENDS
the `0` entry of a NULL column (`append([]int{0}, varLengths...)`). -/
def parseVarLengthsLoop (pageData : List Nat) (nullableColumns : List Column)
    (nullBitmap : List Bool) :
    List Column → Int → List Nat → Except String (List Nat)
  | [], _, acc => .ok acc
  | col :: rest, varHeaderPos, acc =>
    let isNull := col.nullable && findNullBit nullableColumns nullBitmap col.name
    if isNull then
      -- "Prepend 0 for NULL column"
      parseVarLengthsLoop pageData nullableColumns nullBitmap rest varHeaderPos (0 :: acc)
    else
      let p1 := varHeaderPos - 1
      if p1 < 0 then .error "invalid variable header position"
      else
        let length := byteAt pageData p1
        if needsTwoByteLength col length then
          let p2 := p1 - 1
          if p2 < 0 then .error "invalid variable header position"
          else
            let overflowFlag := length &&& 0x40 != 0
            let length2 := ((length &&& 0x3F) <<< 8) ||| byteAt pageData p2
            if overflowFlag then .error "overflow pages not yet supported"
            else parseVarLengthsLoop pageData nullableColumns nullBitmap rest p2
                   (acc ++ [length2])
        else parseVarLengthsLoop pageData nullableColumns nullBitmap rest p1
               (acc ++ [length])

/-- Step 2 wrapper: which variable-length columns carry headers depends on
the page kind (all of them on leaves, only primary-key ones on internal
node-pointer pages). -/
def parseVarLengths (pageData : List Nat) (headerPos nullBitmapSize : Int)
    (td : TableDef) (isLeafPage : Bool) (nullBitmap : List Bool) :
    Except String (List Nat) :=
  if td.hasVarLenColumn then
    let varColumns := if isLeafPage then td.varLenColumns
                      else td.GetPrimaryKeyVarLenColumns
    parseVarLengthsLoop pageData td.nullableColumns nullBitmap varColumns
      (headerPos - nullBitmapSize) []
  else .ok []

/-- Step 3 of `CompactParser.ParseRecord`: decode a list of columns forward
from `dataPos`, consuming entries of `varLengths` at `varLenIdx` for
variable-length columns (NULL columns advance the index without a parse). -/
def parseColsLoop (pageData : List Nat) (nullableColumns : List Column)
    (nullBitmap : List Bool) (varLengths : List Nat) :
    List Column → Int → Nat → List (String × Option Value) →
    Except String (List (String × Option Value) × Int × Nat)
  | [], dataPos, varLenIdx, acc => .ok (acc, dataPos, varLenIdx)
  | col :: rest, dataPos, varLenIdx, acc =>
    let isNull := col.nullable && findNullBit nullableColumns nullBitmap col.name
    if isNull then
      let varLenIdx' := if col.IsVariableLength then varLenIdx + 1 else varLenIdx
      parseColsLoop pageData nullableColumns nullBitmap varLengths rest dataPos
        varLenIdx' (acc ++ [(col.name, none)])
    else
      let vl : Nat × Nat :=
        if col.IsVariableLength then
          if varLenIdx < varLengths.length then (varLengths.getD varLenIdx 0, varLenIdx + 1)
          else (0, varLenIdx)
        else (0, varLenIdx)
      match ParseColumn pageData dataPos col vl.1 with
      | .error e => .error ("parse column " ++ col.name ++ ": " ++ e)
      | .ok (value, bytesRead) =>
          parseColsLoop pageData nullableColumns nullBitmap varLengths rest
            (dataPos + (bytesRead : Int)) vl.2 (acc ++ [(col.name, some value)])

/-- The raw-data heuristic at the end of `ParseRecord` ("Store raw data for
debugging"). -/
def recordTailData (pageData : List Nat) (recordPos : Int) (header : RecordHeader)
    (dataPos : Int) : List Nat :=
  let endPos0 := recordPos + header.nextRecOffset
  let endPos :=
    if header.nextRecOffset ≤ 0 ∨ endPos0 > (pageData.length : Int) then
      if dataPos - recordPos > 100 then recordPos + 100 else dataPos
    else endPos0
  if endPos > recordPos ∧ endPos ≤ (pageData.length : Int) then
    readSlice pageData recordPos (endPos - recordPos).toNat
  else []

/-- `CompactParser.ParseRecord`: header, system-record short-circuit, NULL
bitmap, variable-length vector, primary-key columns, the 13-byte
transaction-id/roll-pointer skip on leaf pages, remaining columns. -/
def ParseRecord (pageData : List Nat) (recordPos : Int) (td : TableDef)
    (isLeafPage : Bool) : Except String GenericRecord :=
  let headerPos := recordPos - (RecordHeaderSize : Int)
  if headerPos < 0 then .error "invalid record position"
  else
    match ParseRecordHeader pageData headerPos with
    | .error e => .error ("parse record header: " ++ e)
    | .ok header =>
      if header.rtype = RecInfimum ∨ header.rtype = RecSupremum then
        if recordPos + (SystemRecordBytes : Int) > (pageData.length : Int) then
          .error "panic: slice out of range"
        else
          .ok { pageNumber := 0, header := header, primaryKeyPos := recordPos,
                data := readSlice pageData recordPos SystemRecordBytes, values := [] }
      else
        match parseNullBitmap pageData headerPos td isLeafPage with
        | .error e => .error e
        | .ok (nullBitmap, nullBitmapSize) =>
          match parseVarLengths pageData headerPos nullBitmapSize td isLeafPage
                  nullBitmap with
          | .error e => .error e
          | .ok varLengths =>
            match parseColsLoop pageData td.nullableColumns nullBitmap varLengths
                    td.primaryKeyColumns recordPos 0 [] with
            | .error e => .error e
            | .ok (pkVals, dataPos1, varIdx1) =>
              -- Skip 6-byte transaction ID and 7-byte roll pointer on leaves
              let dataPos2 := if isLeafPage then dataPos1 + 13 else dataPos1
              match parseColsLoop pageData td.nullableColumns nullBitmap varLengths
                      (td.columns.filter (fun c => !c.isPrimaryKey)) dataPos2
                      varIdx1 pkVals with
              | .error e => .error e
              | .ok (vals, dataPos3, _) =>
                .ok { pageNumber := 0, header := header, primaryKeyPos := recordPos,
                      data := recordTailData pageData recordPos header dataPos3,
                      values := vals }

/-- The decoder's own position after consuming the primary-key columns (the
prefix of `ParseRecord` up to and including the primary-key loop, returning
`dataPos` just before the 13-byte skip). -/
def pkEndPos (pageData : List Nat) (recordPos : Int) (td : TableDef)
    (isLeafPage : Bool) : Except String Int :=
  let headerPos := recordPos - (RecordHeaderSize : Int)
  if headerPos < 0 then .error "invalid record position"
  else
    match ParseRecordHeader pageData headerPos with
    | .error e => .error ("parse record header: " ++ e)
    | .ok header =>
      if header.rtype = RecInfimum ∨ header.rtype = RecSupremum then
        .error "system record"
      else
        match parseNullBitmap pageData headerPos td isLeafPage with
        | .error e => .error e
        | .ok (nullBitmap, nullBitmapSize) =>
          match parseVarLengths pageData headerPos nullBitmapSize td isLeafPage
                  nullBitmap with
          | .error e => .error e
          | .ok varLengths =>
            match parseColsLoop pageData td.nullableColumns nullBitmap varLengths
                    td.primaryKeyColumns recordPos 0 [] with
            | .error e => .error e
            | .ok (_, dataPos1, _) => .ok dataPos1

/-! ## page package: FIL envelope and inner page -/

/-- `page.FilHeader`. -/
structure FilHeader where
  checksum : Nat
  pageNumber : Nat
  prev : Option Nat
  next : Option Nat
  lastModLSN : Nat
  pageType : Nat
  flushLSN : Nat
  spaceID : Nat
deriving DecidableEq, Repr

/-- `ParseFilHeader`; `prev`/`next` are absent when the raw field is
0xFFFFFFFF. -/
def ParseFilHeader (p : List Nat) : Except String FilHeader :=
  if p.length < PageSize then .error "short page"
  else
    let prev := be32D p 8
    let next := be32D p 12
    .ok { checksum := be32D p 0
          pageNumber := be32D p 4
          prev := if prev = 0xFFFFFFFF then none else some prev
          next := if next = 0xFFFFFFFF then none else some next
          lastModLSN := be64D p 16
          pageType := be16D p 24
          flushLSN := be64D p 26
          spaceID := be32D p 34 }

/-- `page.FilTrailer`. -/
structure FilTrailer where
  checksum : Nat
  low32LSN : Nat
deriving DecidableEq, Repr

/-- `ParseFilTrailer`: reads the last 8 bytes at the fixed trailer offset. -/
def ParseFilTrailer (p : List Nat) : Except String FilTrailer :=
  if p.length < FilTrailerSize then .error "short trailer"
  else
    .ok { checksum := be32D p ((PageSize - FilTrailerSize : Nat) : Int)
          low32LSN := be32D p ((PageSize - FilTrailerSize + 4 : Nat) : Int) }

/-- `InnerPage`. -/
structure InnerPage where
  pageNo : Nat
  fil : FilHeader
  trailer : FilTrailer
  data : List Nat
deriving DecidableEq, Repr

/-- `NewInnerPage`: exact 16 KiB length, FIL header and trailer parse, and
the low-32 LSN consistency check. -/
def NewInnerPage (pageNo : Nat) (page : List Nat) : Except String InnerPage :=
  if page.length ≠ PageSize then .error "expected 16384B page"
  else
    match ParseFilHeader page with
    | .error e => .error e
    | .ok h =>
      match ParseFilTrailer page with
      | .error e => .error e
      | .ok t =>
        if h.lastModLSN &&& 0xffffffff ≠ t.low32LSN then .error "low32 LSN mismatch"
        else .ok { pageNo := pageNo, fil := h, trailer := t, data := page }

/-! ## compressed-page shim (compressed.go) -/

def LogicalPageSize : Nat := 16384

def CompressedPageSizes : List Nat := [1024, 2048, 4096, 8192]

/-- `IsPageCompressed`; the C-side sophisticated check is a parameter. -/
def IsPageCompressed (isCompressedC : List Nat → Int) (data : List Nat) : Bool :=
  if data.length < 38 then false
  else if data.length < LogicalPageSize then true
  else isCompressedC data != 0

/-- `DecompressPage`; the C decompression entry point is a parameter
returning the C result code and the bytes it wrote into the 16 KiB
destination buffer. -/
def DecompressPage (zipDecompress : List Nat → Nat → Int × List Nat)
    (src : List Nat) (physicalSize : Nat) : Except String (List Nat) :=
  if ¬ physicalSize ∈ CompressedPageSizes then .error "invalid physical page size"
  else if src.length < physicalSize then .error "source data too small"
  else
    let r := zipDecompress src physicalSize
    if r.1 = 0 then .ok r.2
    else if r.1 = -1 then .error "invalid parameters"
    else if r.1 = -2 then .error "invalid logical page size"
    else if r.1 = -3 then .error "invalid physical page size"
    else if r.1 = -4 then .error "decompression failed"
    else .error "unknown error"

/-- The physical-size probing loop in `TryDecompressPage`. -/
def tryDecompressLoop (zipDecompress : List Nat → Nat → Int × List Nat)
    (data : List Nat) : List Nat → List Nat × Bool × Option String
  | [] => (data, false, some "unable to decompress page")
  | size :: rest =>
    if data.length ≥ size then
      match DecompressPage zipDecompress data size with
      | .ok d => (d, true, none)
      | .error _ => tryDecompressLoop zipDecompress data rest
    else tryDecompressLoop zipDecompress data rest

/-- `TryDecompressPage`: a 16 KiB buffer is returned unchanged (reported as
not compressed) before any compression probing. -/
def TryDecompressPage (zipDecompress : List Nat → Nat → Int × List Nat)
    (isCompressedC : List Nat → Int) (data : List Nat) :
    List Nat × Bool × Option String :=
  if data.length = LogicalPageSize then (data, false, none)
  else if ¬ IsPageCompressed isCompressedC data then (data, false, none)
  else tryDecompressLoop zipDecompress data CompressedPageSizes

end GoInnodb

deriving instance DecidableEq for Except

namespace GoInnodb

/-! ## General lemmas about the byte primitives -/

theorem byteAt_replicate_zero (n : Nat) (i : Int) :
    byteAt (List.replicate n 0) i = 0 := by
  unfold byteAt
  rcases Nat.lt_or_ge i.toNat n with h | h
  · simp [List.getD_eq_getElem?_getD, List.getElem?_replicate, h]
  · simp [List.getD_eq_default, List.length_replicate, h]

theorem byteAt_append_left (l1 l2 : List Nat) (i : Int) (h0 : 0 ≤ i)
    (h : i < (l1.length : Int)) : byteAt (l1 ++ l2) i = byteAt l1 i := by
  unfold byteAt
  have : i.toNat < l1.length := by omega
  exact List.getD_append l1 l2 0 i.toNat this

theorem byteAt_append_right (l1 l2 : List Nat) (i : Int)
    (h : (l1.length : Int) ≤ i) : byteAt (l1 ++ l2) i = byteAt l2 (i - l1.length) := by
  unfold byteAt
  have h1 : l1.length ≤ i.toNat := by omega
  have h2 : (i - (l1.length : Int)).toNat = i.toNat - l1.length := by omega
  rw [h2]
  exact List.getD_append_right l1 l2 0 i.toNat h1

/-! ## Claim theorems -/

/-- C2: evaluating the decoder at the spec's scenario S5.  The Go
`readMediumInt` assembles its three bytes little-endian
(`input[offset] | input[offset+1]<<8 | input[offset+2]<<16`), so on the
encoded bytes `0x7F 0xFF 0xFF` it computes `0xFFFF7F ^ 0x800000 = 0x7FFF7F`
(sign bit clear, no extension) and returns `8388479` — not the `-1` the
claim (and the spec, and the repository's own big-endian documentation)
require. -/
theorem readMediumInt_7FFFFF_is_8388479 :
    readMediumInt [0x7F, 0xFF, 0xFF] 0 = .ok 8388479 ∧ (8388479 : Int) ≠ -1 := by
  decide

/-- C3: the DATE decoder also reads its three bytes through the
little-endian `readUnsignedMediumInt`.  On input bytes `00 00 01` it
computes `v' = 0x010000`, `v = v' ^ 0x800000 = 0x810000`, hence
day = 0, month = 0, year = 16512 and renders `"16512-00-00"`; the claimed
big-endian read (`v' = 1`, `v = 0x800001`) would give day 1, month 0,
year 16384, i.e. `"16384-00-01"`. -/
theorem dateParse_000001_is_16512_00_00 :
    DateTimeParserParse [0x00, 0x00, 0x01] 0 { name := "d", type := .typeDate } =
      .ok (.str (strBytes "16512-00-00"), 3) ∧
    strBytes "16512-00-00" ≠ strBytes "16384-00-01" := by
  decide

/-- The two-VARCHAR schema of the C1 failing input: `a VARCHAR(10) NOT NULL`
followed by `b VARCHAR(10) NULL`, both utf8mb4 (as produced by
`AddColumn`). -/
def c1colA : Column :=
  { name := "a", type := .typeVarchar, length := 10, charset := "utf8mb4" }

def c1colB : Column :=
  { name := "b", type := .typeVarchar, ordinal := 1, length := 10,
    nullable := true, charset := "utf8mb4" }

def c1td : TableDef :=
  { name := "t", columns := [c1colA, c1colB],
    columnMap := [("a", c1colA), ("b", c1colB)], primaryKeys := [],
    nullableColumns := [c1colB], varLenColumns := [c1colA, c1colB],
    primaryKeyColumns := [], nullableCount := 1,
    hasNullableColumn := true, hasVarLenColumn := true }

/-- The C1 failing record: `a = "AAAAA"` (length byte 0x05), `b = NULL`
(bitmap byte 0x01); layout `[0x05][0x01][5-byte header][AAAAA]`, record
origin 7. -/
def c1page : List Nat := [0x05, 0x01, 0, 0, 0, 0, 0, 65, 65, 65, 65, 65]

/-- C1: evaluating the decoder at the failing input.  The variable-length
reconstruction yields `[0, 5]` — the NULL column's `0` entry is PREPENDED
(`append([]int{0}, varLengths...)` in the source) instead of occupying its
own (second) position, so the vector is `[0, 5]` where the claim (and the
forward-indexed consumption in the same function, and the repository's own
pseudocode documentation) require `[5, 0]`.  Consequently the whole record
misdecodes: column `a` is given length 0 and comes back as the empty
string. -/
theorem varLengths_null_entry_prepended :
    parseNullBitmap c1page 2 c1td true = .ok ([true], 1) ∧
    parseVarLengths c1page 2 1 c1td true [true] = .ok [0, 5] ∧
    (ParseRecord c1page 7 c1td true).map GenericRecord.values =
      .ok [("a", some (.str [])), ("b", none)] ∧
    ([0, 5] : List Nat) ≠ [5, 0] := by
  decide

/-- C8: with a physical buffer already of logical size (16384 bytes),
`TryDecompressPage` returns the input unchanged, reports it as not
compressed, and never consults the decompression routine or the
compression heuristic (the result holds for every choice of the two
external C functions). -/
theorem tryDecompress_identity_at_logical_size
    (zipDecompress : List Nat → Nat → Int × List Nat)
    (isCompressedC : List Nat → Int) (data : List Nat)
    (h : data.length = LogicalPageSize) :
    TryDecompressPage zipDecompress isCompressedC data = (data, false, none) := by
  unfold TryDecompressPage
  simp [h]

/-- C8 witness: the identity at a concrete 16 KiB buffer, with oracles that
would visibly corrupt the result if they were consulted. -/
theorem tryDecompress_identity_witness :
    (List.replicate 16384 0).length = LogicalPageSize ∧
    TryDecompressPage (fun _ _ => (0, [7])) (fun _ => 1)
      (List.replicate 16384 0) = (List.replicate 16384 0, false, none) :=
  ⟨by rw [List.length_replicate]; rfl,
   tryDecompress_identity_at_logical_size _ _ _ (by rw [List.length_replicate]; rfl)⟩

/-! ### C9: AddColumn keeps ordinals dense and names unique -/

/-- A sequence of `AddColumn` calls, stopping at the first failure. -/
def addColumns (td : TableDef) (cols : List Column) : Except String TableDef :=
  cols.foldlM (fun t c => t.AddColumn c) td

theorem lookup_isSome_iff (a : String) (l : List (String × Column)) :
    (List.lookup a l).isSome = true ↔ a ∈ l.map Prod.fst := by
  induction l with
  | nil => simp [List.lookup]
  | cons p rest ih =>
    rcases p with ⟨k, v⟩
    by_cases h : a = k
    · subst h; simp [List.lookup]
    · have hb : (a == k) = false := by simp [h]
      simp [List.lookup, hb, ih, h]

theorem addColumns_spec (cols : List Column) :
    ∀ td : TableDef,
    td.columnMap.map Prod.fst = td.columns.map Column.name →
    (td.columns.map Column.name ++ cols.map Column.name).Nodup →
    ∃ td', addColumns td cols = .ok td' ∧
      td'.columnMap.map Prod.fst = td'.columns.map Column.name ∧
      td'.columns.map Column.name = td.columns.map Column.name ++ cols.map Column.name ∧
      td'.columns.map Column.ordinal =
        td.columns.map Column.ordinal ++ List.range' td.columns.length cols.length := by
  induction cols with
  | nil => intro td hkeys _; exact ⟨td, rfl, hkeys, by simp, by simp⟩
  | cons c rest ih =>
    intro td hkeys hnd
    have hnotmem : c.name ∉ td.columns.map Column.name := by
      intro hmem
      exact (List.disjoint_of_nodup_append hnd) hmem (by simp)
    have hlookup : (List.lookup c.name td.columnMap).isSome = false := by
      rw [← hkeys] at hnotmem
      cases hl : (List.lookup c.name td.columnMap).isSome
      · rfl
      · exact absurd ((lookup_isSome_iff _ _).1 hl) hnotmem
    have hadd : td.AddColumn c =
        .ok { td with
          columns := td.columns ++ [{ c with ordinal := td.columns.length }],
          columnMap := td.columnMap ++ [(c.name, { c with ordinal := td.columns.length })],
          nullableColumns := if c.nullable then
            td.nullableColumns ++ [{ c with ordinal := td.columns.length }]
            else td.nullableColumns,
          nullableCount := if c.nullable then td.nullableCount + 1 else td.nullableCount,
          hasNullableColumn := td.hasNullableColumn || c.nullable,
          varLenColumns := if Column.IsVariableLength { c with ordinal := td.columns.length }
            then td.varLenColumns ++ [{ c with ordinal := td.columns.length }]
            else td.varLenColumns,
          hasVarLenColumn := td.hasVarLenColumn ||
            Column.IsVariableLength { c with ordinal := td.columns.length } } := by
      unfold TableDef.AddColumn
      rw [hlookup]
      simp
    set td1 := { td with
          columns := td.columns ++ [{ c with ordinal := td.columns.length }],
          columnMap := td.columnMap ++ [(c.name, { c with ordinal := td.columns.length })],
          nullableColumns := if c.nullable then
            td.nullableColumns ++ [{ c with ordinal := td.columns.length }]
            else td.nullableColumns,
          nullableCount := if c.nullable then td.nullableCount + 1 else td.nullableCount,
          hasNullableColumn := td.hasNullableColumn || c.nullable,
          varLenColumns := if Column.IsVariableLength { c with ordinal := td.columns.length }
            then td.varLenColumns ++ [{ c with ordinal := td.columns.length }]
            else td.varLenColumns,
          hasVarLenColumn := td.hasVarLenColumn ||
            Column.IsVariableLength { c with ordinal := td.columns.length } } with htd1
    have hkeys1 : td1.columnMap.map Prod.fst = td1.columns.map Column.name := by
      simp [htd1, hkeys]
    have hnames1 : td1.columns.map Column.name = td.columns.map Column.name ++ [c.name] := by
      simp [htd1]
    have hnd1 : (td1.columns.map Column.name ++ rest.map Column.name).Nodup := by
      rw [hnames1, List.append_assoc, List.singleton_append]
      simpa using hnd
    obtain ⟨td', hrun, hk', hn', ho'⟩ := ih td1 hkeys1 hnd1
    refine ⟨td', ?_, hk', ?_, ?_⟩
    · unfold addColumns at hrun ⊢
      simp only [List.foldlM_cons, hadd]
      exact hrun
    · rw [hn', hnames1, List.append_assoc, List.singleton_append]
      simp
    · rw [ho']
      have hlen1 : td1.columns.length = td.columns.length + 1 := by simp [htd1]
      have hord1 : td1.columns.map Column.ordinal =
          td.columns.map Column.ordinal ++ [td.columns.length] := by simp [htd1]
      rw [hord1, hlen1, List.append_assoc, List.singleton_append,
        ← List.range'_succ td.columns.length rest.length 1]
      simp

/-- Successful `addColumns` runs keep the column map's key list in sync with
the column names and append exactly the added names. -/
theorem addColumns_keys_sync (cols : List Column) :
    ∀ td td' : TableDef, addColumns td cols = .ok td' →
    td.columnMap.map Prod.fst = td.columns.map Column.name →
    td'.columnMap.map Prod.fst = td'.columns.map Column.name ∧
    td'.columns.map Column.name = td.columns.map Column.name ++ cols.map Column.name := by
  induction cols with
  | nil =>
    intro td td' hrun hkeys
    unfold addColumns at hrun
    simp only [List.foldlM_nil] at hrun
    cases hrun
    exact ⟨hkeys, by simp⟩
  | cons c rest ih =>
    intro td td' hrun hkeys
    unfold addColumns at hrun
    simp only [List.foldlM_cons] at hrun
    cases hl : td.AddColumn c with
    | error e => rw [hl] at hrun; cases hrun
    | ok td1 =>
      rw [hl] at hrun
      have hsome : (List.lookup c.name td.columnMap).isSome = false := by
        by_contra hne
        have : (List.lookup c.name td.columnMap).isSome = true := by
          cases h : (List.lookup c.name td.columnMap).isSome
          · exact absurd h hne
          · rfl
        unfold TableDef.AddColumn at hl
        rw [this] at hl
        simp at hl
      unfold TableDef.AddColumn at hl
      rw [hsome] at hl
      simp only [Bool.false_eq_true, if_neg] at hl
      cases hl
      obtain ⟨hk', hn'⟩ := ih _ td' hrun (by simp [hkeys])
      refine ⟨hk', ?_⟩
      rw [hn']
      simp

/-- C9: (1) adding `n` columns with pairwise-distinct names to a fresh
table definition succeeds and assigns ordinals exactly `0, 1, …, n−1` in
insertion order; (2) adding a column whose name was already added fails
with the duplicate-name error (the Go method returns before any mutation,
so the descriptor is unchanged). -/
theorem addColumn_ordinals_dense_and_unique :
    (∀ cols : List Column, (cols.map Column.name).Nodup →
      ∃ td, addColumns (NewTableDef "t") cols = .ok td ∧
        td.columns.map Column.ordinal = List.range cols.length ∧
        td.columns.map Column.name = cols.map Column.name) ∧
    (∀ (cols : List Column) (td : TableDef) (col : Column),
      addColumns (NewTableDef "t") cols = .ok td →
      col.name ∈ cols.map Column.name →
      td.AddColumn col = .error ("column " ++ col.name ++ " already exists")) := by
  constructor
  · intro cols hnd
    obtain ⟨td, hrun, _, hn, ho⟩ := addColumns_spec cols (NewTableDef "t")
      (by simp [NewTableDef]) (by simpa [NewTableDef] using hnd)
    refine ⟨td, hrun, ?_, by simpa [NewTableDef] using hn⟩
    rw [ho]
    simp [NewTableDef, List.range_eq_range']
  · intro cols td col hrun hmem
    obtain ⟨hk, hn⟩ := addColumns_keys_sync cols (NewTableDef "t") td hrun
      (by simp [NewTableDef])
    have : col.name ∈ td.columnMap.map Prod.fst := by
      rw [hk, hn]
      simpa [NewTableDef] using hmem
    have hsome := (lookup_isSome_iff col.name td.columnMap).2 this
    unfold TableDef.AddColumn
    rw [hsome]
    simp

/-- C9 witness: both parts of the theorem at concrete inputs — two columns
`x`, `y` get ordinals `[0, 1]`, and re-adding `x` to the resulting
single-column table fails with the duplicate error. -/
theorem addColumn_ordinals_witness :
    ((([{ name := "x", type := .typeInt }, { name := "y", type := .typeVarchar }] :
        List Column).map Column.name).Nodup ∧
     (∃ td, addColumns (NewTableDef "t")
        [{ name := "x", type := .typeInt }, { name := "y", type := .typeVarchar }] = .ok td ∧
        td.columns.map Column.ordinal = List.range 2 ∧
        td.columns.map Column.name = ["x", "y"])) ∧
    (addColumns (NewTableDef "t") [{ name := "x", type := .typeInt }] =
       .ok { name := "t", columns := [{ name := "x", type := .typeInt }],
             columnMap := [("x", { name := "x", type := .typeInt })],
             primaryKeys := [], nullableColumns := [], varLenColumns := [],
             primaryKeyColumns := [], nullableCount := 0,
             hasNullableColumn := false, hasVarLenColumn := false } ∧
     TableDef.AddColumn
       { name := "t", columns := [{ name := "x", type := .typeInt }],
         columnMap := [("x", { name := "x", type := .typeInt })],
         primaryKeys := [], nullableColumns := [], varLenColumns := [],
         primaryKeyColumns := [], nullableCount := 0,
         hasNullableColumn := false, hasVarLenColumn := false }
       { name := "x", type := .typeBigInt } =
       .error ("column " ++ "x" ++ " already exists")) :=
  ⟨⟨by decide, addColumn_ordinals_dense_and_unique.1 _ (by decide)⟩,
   ⟨by decide, addColumn_ordinals_dense_and_unique.2 [{ name := "x", type := .typeInt }]
      _ { name := "x", type := .typeBigInt } (by decide) (by decide)⟩⟩

/-! ### C5: envelope validation succeeds iff the low-32 LSNs agree -/

theorem and_mask32 (x : Nat) : x &&& 0xffffffff = x % 2 ^ 32 := by
  have := Nat.and_pow_two_sub_one_eq_mod x 32
  norm_num at this ⊢
  omega

/-- C5: for a buffer of exactly 16384 bytes, `NewInnerPage` succeeds iff the
trailer's low-32 LSN equals the header's 64-bit last-modification LSN
modulo 2^32, and on mismatch it fails with the LSN-mismatch error. -/
theorem envelope_validation_iff (pageNo : Nat) (page : List Nat)
    (h : FilHeader) (t : FilTrailer) (hlen : page.length = PageSize)
    (hh : ParseFilHeader page = .ok h) (ht : ParseFilTrailer page = .ok t) :
    ((∃ ip, NewInnerPage pageNo page = .ok ip) ↔
      h.lastModLSN % 2 ^ 32 = t.low32LSN) ∧
    (h.lastModLSN % 2 ^ 32 ≠ t.low32LSN →
      NewInnerPage pageNo page = .error "low32 LSN mismatch") := by
  unfold NewInnerPage
  rw [hh, ht]
  simp only [hlen, ne_eq, not_true_eq_false, if_false, and_mask32]
  by_cases hc : h.lastModLSN % 4294967296 = t.low32LSN
  · norm_num [hc]
  · norm_num [hc]
    exact fun x hx => Except.noConfusion hx

/-- C5 witness: the all-zero 16 KiB page parses with LSN 0 in both places
and envelope construction succeeds. -/
theorem envelope_validation_witness :
    (List.replicate 16384 0).length = PageSize ∧
    ParseFilHeader (List.replicate 16384 0) =
      .ok { checksum := 0, pageNumber := 0, prev := some 0, next := some 0,
            lastModLSN := 0, pageType := 0, flushLSN := 0, spaceID := 0 } ∧
    ParseFilTrailer (List.replicate 16384 0) =
      .ok { checksum := 0, low32LSN := 0 } ∧
    ((∃ ip, NewInnerPage 7 (List.replicate 16384 0) = .ok ip) ↔
      (0 : Nat) % 2 ^ 32 = 0) := by
  have hlen16 : (List.replicate (16384 : Nat) (0 : Nat)).length = 16384 :=
    List.length_replicate 16384 0
  have hlen : (List.replicate (16384 : Nat) (0 : Nat)).length = PageSize := by
    rw [hlen16]; rfl
  have hh : ParseFilHeader (List.replicate 16384 0) =
      .ok { checksum := 0, pageNumber := 0, prev := some 0, next := some 0,
            lastModLSN := 0, pageType := 0, flushLSN := 0, spaceID := 0 } := by
    unfold ParseFilHeader
    rw [hlen16]
    norm_num [be32D, be64D, be16D, be32, be64, be16, byteAt_replicate_zero, hlen16, PageSize]
    simp [Except.toOption]
  have ht : ParseFilTrailer (List.replicate 16384 0) =
      .ok { checksum := 0, low32LSN := 0 } := by
    unfold ParseFilTrailer
    rw [hlen16]
    norm_num [FilTrailerSize, PageSize]
    constructor
    · norm_num [be32D, be32, byteAt_replicate_zero, hlen16]
      simp [Except.toOption]
    · norm_num [be32D, be32, byteAt_replicate_zero, hlen16]
      simp [Except.toOption]
  exact ⟨hlen, hh, ht,
    (envelope_validation_iff 7 (List.replicate 16384 0) _ _ hlen hh ht).1⟩

/-! ### C7: walker stops on the SUPREMUM sentinel and bounds every hop -/

/-- C7: at any step of the walker (any remaining budget, any accumulated
output), a current record with `nextRecOffset = 0` stops the walk
successfully, and otherwise a computed next origin outside
`[FilHeaderSize+PageHeaderSize, PageSize−FilTrailerSize) = [94, 16376)`
yields the out-of-bounds error before any header is read at that
position. -/
theorem walker_sentinel_and_bounds (pageNo : Nat) (pageData : List Nat)
    (cur : GenericRecord) (out : List GenericRecord) (fuel : Nat)
    (skipSystem : Bool) :
    (FilHeaderSize + PageHeaderSize = 94 ∧ PageSize - FilTrailerSize = 16376) ∧
    (cur.header.nextRecOffset = 0 →
      walkLoop pageNo pageData (fuel + 1) cur out skipSystem = .ok out) ∧
    (cur.header.nextRecOffset ≠ 0 →
      (cur.NextRecordPos < ((FilHeaderSize + PageHeaderSize : Nat) : Int) ∨
       cur.NextRecordPos ≥ ((PageSize - FilTrailerSize : Nat) : Int)) →
      walkLoop pageNo pageData (fuel + 1) cur out skipSystem =
        .error ("next content position out of bounds: " ++ toString cur.NextRecordPos)) := by
  refine ⟨⟨rfl, rfl⟩, ?_, ?_⟩
  · intro h0
    unfold walkLoop
    rw [if_pos h0]
  · intro h0 hb
    unfold walkLoop
    rw [if_neg h0, if_pos hb]

/-- C7 witness: both branches at concrete records — a SUPREMUM-style record
with offset 0 stops, and a record whose next origin would be 2 (< 94)
errors. -/
theorem walker_sentinel_and_bounds_witness :
    (({ pageNumber := 0,
        header := { flagsMinRec := false, flagsDeleted := false, numOwned := 1,
                    heapNumber := 1, rtype := 3, nextRecOffset := 0 },
        primaryKeyPos := 112, data := [], values := [] } :
        GenericRecord).header.nextRecOffset = 0 ∧
      walkLoop 0 [] 1
        { pageNumber := 0,
          header := { flagsMinRec := false, flagsDeleted := false, numOwned := 1,
                      heapNumber := 1, rtype := 3, nextRecOffset := 0 },
          primaryKeyPos := 112, data := [], values := [] } [] false = .ok []) ∧
    (walkLoop 0 [] 1
        { pageNumber := 0,
          header := { flagsMinRec := false, flagsDeleted := false, numOwned := 0,
                      heapNumber := 2, rtype := 0, nextRecOffset := -100 },
          primaryKeyPos := 102, data := [], values := [] } [] false =
      .error ("next content position out of bounds: " ++ toString (2 : Int))) := by
  refine ⟨⟨rfl, ?_⟩, ?_⟩
  · exact (walker_sentinel_and_bounds 0 [] _ [] 0 false).2.1 rfl
  · have := (walker_sentinel_and_bounds 0 []
      { pageNumber := 0,
        header := { flagsMinRec := false, flagsDeleted := false, numOwned := 0,
                    heapNumber := 2, rtype := 0, nextRecOffset := -100 },
        primaryKeyPos := 102, data := [], values := [] } [] 0 false).2.2
      (by decide) (by left; decide)
    simpa [GenericRecord.NextRecordPos] using this

/-! ### C4: exhausting the step cap returns a partial list, not an error -/

/-- The C4 counterexample page (200 bytes is enough for the walker, whose
bounds are absolute): INFIMUM-style header at 97 with `next = +18`
pointing to origin 120, whose header at 115 has `next = −18` pointing back
to origin 102 — a two-cycle that never reaches a SUPREMUM record. -/
def c4page : List Nat :=
  List.replicate 97 0 ++ [0, 0, 2, 0, 18] ++ strBytes "infimum" ++ [0] ++
  List.replicate 5 0 ++ [0, 0, 0, 0xFF, 0xEE] ++ List.replicate 80 0

def c4infimum : GenericRecord :=
  { pageNumber := 0,
    header := { flagsMinRec := false, flagsDeleted := false, numOwned := 0,
                heapNumber := 0, rtype := 2, nextRecOffset := 18 },
    primaryKeyPos := 102, data := strBytes "infimum" ++ [0], values := [] }

set_option maxRecDepth 100000 in
/-- C4 counterexample: on a cyclic record chain the walker performs all
`max = 4` steps without ever reaching a record with `nextRecOffset = 0`
(SUPREMUM), yet it returns `.ok` with the 5 partially-collected records —
not a `WalkTooLong` error (no such error exists in the source; the loop
simply falls through to `return out, nil`). -/
theorem walker_cap_partial_ok_counterexample :
    (WalkRecordsFromData 0 c4page c4infimum 4 false).isOk = true ∧
    ((WalkRecordsFromData 0 c4page c4infimum 4 false).toOption.getD []).length = 5 ∧
    ((WalkRecordsFromData 0 c4page c4infimum 4 false).toOption.getD []).all
      (fun r => r.header.rtype != RecSupremum && r.header.nextRecOffset != 0) = true := by
  decide

/-- C4 amended: when the walker's step budget is exhausted it falls out of
the loop and returns the records accumulated so far with a nil error; the
cap silently truncates the traversal. -/
theorem walker_cap_exhaustion_silently_truncates (pageNo : Nat)
    (pageData : List Nat) (cur : GenericRecord) (out : List GenericRecord)
    (skipSystem : Bool) :
    walkLoop pageNo pageData 0 cur out skipSystem = .ok out := rfl

/-! ### C10: system records short-circuit the decoder -/

/-- C10 amended: for a record position whose 5-byte header parses with type
INFIMUM or SUPREMUM **and** that leaves at least 8 bytes before the end of
the buffer, `ParseRecord` succeeds with the 8 literal bytes at the origin
as `Data` and no column values, for every schema and either `is_leaf`
flag. -/
theorem parseRecord_system_record (page : List Nat) (recordPos : Int)
    (td : TableDef) (isLeaf : Bool) (hdr : RecordHeader)
    (h5 : 0 ≤ recordPos - 5)
    (hh : ParseRecordHeader page (recordPos - 5) = .ok hdr)
    (hsys : hdr.rtype = RecInfimum ∨ hdr.rtype = RecSupremum)
    (hbound : recordPos + 8 ≤ (page.length : Int)) :
    ParseRecord page recordPos td isLeaf =
      .ok { pageNumber := 0, header := hdr, primaryKeyPos := recordPos,
            data := readSlice page recordPos SystemRecordBytes, values := [] } := by
  unfold ParseRecord
  have hr5 : ((RecordHeaderSize : Nat) : Int) = 5 := rfl
  rw [hr5, if_neg (by omega), hh]
  dsimp only
  rw [if_pos hsys]
  rw [if_neg (by simp only [SystemRecordBytes]; omega)]

/-- The Go panic branch: a system-record header within 8 bytes of the end
of the buffer makes `pageData[recordPos : recordPos+8]` a slice out of
range. -/
theorem parseRecord_system_panic (page : List Nat) (recordPos : Int)
    (td : TableDef) (isLeaf : Bool) (hdr : RecordHeader)
    (h5 : 0 ≤ recordPos - 5)
    (hh : ParseRecordHeader page (recordPos - 5) = .ok hdr)
    (hsys : hdr.rtype = RecInfimum ∨ hdr.rtype = RecSupremum)
    (hbound : (page.length : Int) < recordPos + 8) :
    ParseRecord page recordPos td isLeaf = .error "panic: slice out of range" := by
  unfold ParseRecord
  have hr5 : ((RecordHeaderSize : Nat) : Int) = 5 := rfl
  rw [hr5, if_neg (by omega), hh]
  dsimp only
  rw [if_pos hsys]
  rw [if_pos (by simp only [SystemRecordBytes]; omega)]

/-- The C10 counterexample page: a full 16384-byte buffer whose last bytes
place an INFIMUM-typed 5-byte header at 16375, so the record origin is
16380 and the 8-byte literal slice would end at 16388 > 16384. -/
def c10page : List Nat := List.replicate 16375 0 ++ [0, 0, 2, 0, 0, 0, 0, 0, 0]

theorem c10page_length : c10page.length = 16384 := by
  unfold c10page
  rw [List.length_append, List.length_replicate]
  rfl

theorem c10page_tail (k : Nat) (hk : k < 9) :
    byteAt c10page (16375 + (k : Int)) = [0, 0, 2, 0, 0, 0, 0, 0, 0].getD k 0 := by
  unfold c10page
  rw [byteAt_append_right _ _ _ (by simp only [List.length_replicate]; omega)]
  simp only [List.length_replicate]
  have h : ((16375 : Int) + (k : Int) - ((16375 : Nat) : Int)) = (k : Int) := by
    push_cast; ring
  rw [h]
  simp [byteAt]

theorem c10_header : ParseRecordHeader c10page 16375 =
    .ok { flagsMinRec := false, flagsDeleted := false, numOwned := 0,
          heapNumber := 0, rtype := 2, nextRecOffset := 0 } := by
  have h0 := c10page_tail 0 (by omega)
  have h1 := c10page_tail 1 (by omega)
  have h2 := c10page_tail 2 (by omega)
  have h3 := c10page_tail 3 (by omega)
  have h4 := c10page_tail 4 (by omega)
  norm_num at h0 h1 h2 h3 h4
  unfold ParseRecordHeader
  rw [if_neg (by rw [c10page_length]; norm_num [RecordHeaderSize]),
      if_neg (by norm_num)]
  unfold be16D be16
  rw [if_neg (by rw [c10page_length]; norm_num),
      if_neg (by rw [c10page_length]; norm_num)]
  norm_num [h0, h1, h2, h3, h4, Except.toOption, toSigned]
  decide

/-- C10 counterexample: at record position 16380 of a 16384-byte page whose
header there has type INFIMUM, the decoder does not return successfully —
the slice of the 8 literal bytes runs past the end of the page (a Go
panic), so the claim fails as stated for positions within 8 bytes of the
page end. -/
theorem parseRecord_system_panic_counterexample :
    ParseRecord c10page 16380 (NewTableDef "t") true =
      .error "panic: slice out of range" := by
  apply parseRecord_system_panic c10page 16380 (NewTableDef "t") true
    { flagsMinRec := false, flagsDeleted := false, numOwned := 0,
      heapNumber := 0, rtype := 2, nextRecOffset := 0 }
  · norm_num
  · show ParseRecordHeader c10page 16375 = _
    exact c10_header
  · exact Or.inl rfl
  · rw [c10page_length]; norm_num

/-- C10 witness for the amended theorem: a 13-byte buffer with an INFIMUM
header at 0 and the literal at origin 5 decodes to the literal bytes with
no values. -/
theorem parseRecord_system_record_witness :
    (0 : Int) ≤ 5 - 5 ∧
    ParseRecordHeader ([0, 0, 2, 0, 0] ++ strBytes "infimum" ++ [0]) (5 - 5) =
      .ok { flagsMinRec := false, flagsDeleted := false, numOwned := 0,
            heapNumber := 0, rtype := 2, nextRecOffset := 0 } ∧
    (5 : Int) + 8 ≤ (([0, 0, 2, 0, 0] ++ strBytes "infimum" ++ [0] :
      List Nat).length : Int) ∧
    ParseRecord ([0, 0, 2, 0, 0] ++ strBytes "infimum" ++ [0]) 5
      (NewTableDef "t") false =
      .ok { pageNumber := 0,
            header := { flagsMinRec := false, flagsDeleted := false,
                        numOwned := 0, heapNumber := 0, rtype := 2,
                        nextRecOffset := 0 },
            primaryKeyPos := 5,
            data := readSlice ([0, 0, 2, 0, 0] ++ strBytes "infimum" ++ [0]) 5
              SystemRecordBytes,
            values := [] } :=
  ⟨by decide, by decide, by decide,
   parseRecord_system_record ([0, 0, 2, 0, 0] ++ strBytes "infimum" ++ [0]) 5
     (NewTableDef "t") false
     { flagsMinRec := false, flagsDeleted := false, numOwned := 0,
       heapNumber := 0, rtype := 2, nextRecOffset := 0 }
     (by decide) (by decide) (Or.inl rfl) (by decide)⟩

/-! ### C6: the 13 skipped system bytes never reach a decoded value

The claim is settled as a non-interference theorem: the decoded column
values of a clustered-leaf record are identical on any two pages that agree
everywhere except on the 13 bytes starting at the decoder's own
end-of-primary-key position.  The lemmas below show each reading primitive
depends only on the bytes it reads. -/

section Congruence

variable {p p' : List Nat}

theorem readSlice_congr (lo : Int) (n : Nat)
    (hr : ∀ k : Nat, k < n → byteAt p (lo + (k : Int)) = byteAt p' (lo + (k : Int))) :
    readSlice p lo n = readSlice p' lo n := by
  unfold readSlice
  apply List.map_congr_left
  intro k hk
  exact hr k (List.mem_range.mp hk)

theorem be16_congr (hlen : p.length = p'.length) (off : Int)
    (h0 : byteAt p off = byteAt p' off)
    (h1 : byteAt p (off + 1) = byteAt p' (off + 1)) :
    be16 p off = be16 p' off := by
  unfold be16; rw [hlen, h0, h1]

theorem be32_congr (hlen : p.length = p'.length) (off : Int)
    (h0 : byteAt p off = byteAt p' off)
    (h1 : byteAt p (off + 1) = byteAt p' (off + 1))
    (h2 : byteAt p (off + 2) = byteAt p' (off + 2))
    (h3 : byteAt p (off + 3) = byteAt p' (off + 3)) :
    be32 p off = be32 p' off := by
  unfold be32; rw [hlen, h0, h1, h2, h3]

theorem be64_congr (hlen : p.length = p'.length) (off : Int)
    (h : ∀ k : Nat, k < 8 → byteAt p (off + (k : Int)) = byteAt p' (off + (k : Int))) :
    be64 p off = be64 p' off := by
  have h0 := h 0 (by omega); have h1 := h 1 (by omega)
  have h2 := h 2 (by omega); have h3 := h 3 (by omega)
  have h4 := h 4 (by omega); have h5 := h 5 (by omega)
  have h6 := h 6 (by omega); have h7 := h 7 (by omega)
  norm_num at h0 h1 h2 h3 h4 h5 h6 h7
  unfold be64; rw [hlen, h0, h1, h2, h3, h4, h5, h6, h7]

theorem readUint8_congr (hlen : p.length = p'.length) (off : Int)
    (h0 : byteAt p off = byteAt p' off) :
    readUint8 p off = readUint8 p' off := by
  unfold readUint8; rw [hlen, h0]

theorem readBytes_congr (hlen : p.length = p'.length) (off : Int) (n : Nat)
    (hr : ∀ k : Nat, k < n → byteAt p (off + (k : Int)) = byteAt p' (off + (k : Int))) :
    readBytes p off n = readBytes p' off n := by
  unfold readBytes
  rw [hlen, readSlice_congr off n hr]

theorem readMediumInt_congr (hlen : p.length = p'.length) (off : Int)
    (h0 : byteAt p off = byteAt p' off)
    (h1 : byteAt p (off + 1) = byteAt p' (off + 1))
    (h2 : byteAt p (off + 2) = byteAt p' (off + 2)) :
    readMediumInt p off = readMediumInt p' off := by
  unfold readMediumInt; rw [hlen, h0, h1, h2]

theorem readUnsignedMediumInt_congr (hlen : p.length = p'.length) (off : Int)
    (h0 : byteAt p off = byteAt p' off)
    (h1 : byteAt p (off + 1) = byteAt p' (off + 1))
    (h2 : byteAt p (off + 2) = byteAt p' (off + 2)) :
    readUnsignedMediumInt p off = readUnsignedMediumInt p' off := by
  unfold readUnsignedMediumInt; rw [hlen, h0, h1, h2]

theorem packLE_congr (q q' : List Nat) (off : Int) (n : Nat)
    (hr : ∀ k : Nat, k < n → byteAt q (off + (k : Int)) = byteAt q' (off + (k : Int))) :
    packLE q off n = packLE q' off n := by
  induction n with
  | zero => rfl
  | succ m ih =>
    unfold packLE
    rw [ih (fun k hk => hr k (by omega)), hr m (by omega)]

theorem readFraction_congr (hlen : p.length = p'.length) (off : Int) (prec : Nat)
    (hr : ∀ k : Nat, k < (prec + 1) / 2 →
      byteAt p (off + (k : Int)) = byteAt p' (off + (k : Int))) :
    readFraction p off prec = readFraction p' off prec := by
  unfold readFraction
  dsimp only
  rw [hlen, packLE_congr p p' off ((prec + 1) / 2) hr]

end Congruence

end GoInnodb
namespace GoInnodb
variable {p p' : List Nat}

theorem ParseColumn_congr (hlen : p.length = p'.length) (pos : Int)
    (col : Column) (varLen : Nat)
    (hw : ∀ i : Int, pos ≤ i → i < pos + (colReadWidth col varLen : Int) →
      byteAt p i = byteAt p' i) :
    ParseColumn p pos col varLen = ParseColumn p' pos col varLen := by
  obtain ⟨nm, ct, od, len, prec, sc, nl, us, cs, pk⟩ := col
  cases ct <;>
    simp only [ParseColumn, IntParserParse, StringParserParse,
      DateTimeParserParse, colReadWidth] at hw ⊢ <;> try rfl
  case typeTinyInt =>
    have h := readUint8_congr hlen pos (hw pos (by omega) (by push_cast; omega))
    simp only [readInt8, h]
  case typeSmallInt =>
    have h := be16_congr hlen pos (hw pos (by omega) (by push_cast; omega))
      (hw (pos+1) (by omega) (by push_cast; omega))
    simp [readInt16, readUint16, h]
  case typeMediumInt =>
    have h1 := readMediumInt_congr hlen pos (hw pos (by omega) (by push_cast; omega))
      (hw (pos+1) (by omega) (by push_cast; omega))
      (hw (pos+2) (by omega) (by push_cast; omega))
    have h2 := readUnsignedMediumInt_congr hlen pos
      (hw pos (by omega) (by push_cast; omega))
      (hw (pos+1) (by omega) (by push_cast; omega))
      (hw (pos+2) (by omega) (by push_cast; omega))
    simp only [h1, h2]
  case typeInt =>
    have h := be32_congr hlen pos (hw pos (by omega) (by push_cast; omega))
      (hw (pos+1) (by omega) (by push_cast; omega))
      (hw (pos+2) (by omega) (by push_cast; omega))
      (hw (pos+3) (by omega) (by push_cast; omega))
    simp only [readInt32, readUint32, h]
  case typeBigInt =>
    have h := be64_congr hlen pos (fun k hk => hw (pos + k)
      (by omega) (by push_cast; omega))
    simp only [readInt64, readUint64, h]
  case typeYear =>
    by_cases hus : us = true
    · simp only [hus, if_true] at hw
      have h := be16_congr hlen pos (hw pos (by omega) (by push_cast; omega))
        (hw (pos+1) (by omega) (by push_cast; omega))
      simp [readUint16, hus, h]
    · have hus' : us = false := by simpa using hus
      simp only [hus', Bool.false_eq_true, if_false] at hw
      have h := readUint8_congr hlen pos (hw pos (by omega) (by push_cast; omega))
      simp [hus', h]
  case typeBoolean =>
    have h := readUint8_congr hlen pos (hw pos (by omega) (by push_cast; omega))
    simp only [h]
  case typeBool =>
    have h := readUint8_congr hlen pos (hw pos (by omega) (by push_cast; omega))
    simp only [h]
  case typeChar =>
    by_cases hvc : Column.IsVariableLength
        { name := nm, type := CType.typeChar, ordinal := od, length := len,
          precision := prec, scale := sc, nullable := nl, unsigned := us,
          charset := cs, isPrimaryKey := pk } = true ∧ 0 < varLen
    · rw [if_pos hvc] at hw
      have h := readBytes_congr hlen pos varLen
        (fun k hk => hw (pos + k) (by omega) (by push_cast; omega))
      rw [if_pos hvc, if_pos hvc, h]
    · rw [if_neg hvc] at hw
      have h := readBytes_congr hlen pos
        (charFixedLen
          { name := nm, type := CType.typeChar, ordinal := od, length := len,
            precision := prec, scale := sc, nullable := nl, unsigned := us,
            charset := cs, isPrimaryKey := pk })
        (fun k hk => hw (pos + k) (by omega) (by push_cast; omega))
      rw [if_neg hvc, if_neg hvc, h]
  case typeVarchar =>
    by_cases hv : varLen = 0
    · simp [hv]
    · have h := readBytes_congr hlen pos varLen
        (fun k hk => hw (pos + k) (by omega) (by push_cast; omega))
      simp [hv, h]
  case typeText =>
    by_cases hv : varLen = 0
    · simp [hv]
    · have h := readBytes_congr hlen pos varLen
        (fun k hk => hw (pos + k) (by omega) (by push_cast; omega))
      simp [hv, h]
  case typeTinyText =>
    by_cases hv : varLen = 0
    · simp [hv]
    · have h := readBytes_congr hlen pos varLen
        (fun k hk => hw (pos + k) (by omega) (by push_cast; omega))
      simp [hv, h]
  case typeMediumText =>
    by_cases hv : varLen = 0
    · simp [hv]
    · have h := readBytes_congr hlen pos varLen
        (fun k hk => hw (pos + k) (by omega) (by push_cast; omega))
      simp [hv, h]
  case typeLongText =>
    by_cases hv : varLen = 0
    · simp [hv]
    · have h := readBytes_congr hlen pos varLen
        (fun k hk => hw (pos + k) (by omega) (by push_cast; omega))
      simp [hv, h]
  case typeBinary =>
    have h := readBytes_congr hlen pos len
      (fun k hk => hw (pos + k) (by omega) (by push_cast; omega))
    simp only [h]
  case typeVarBinary =>
    by_cases hv : varLen = 0
    · simp [hv]
    · have h := readBytes_congr hlen pos varLen
        (fun k hk => hw (pos + k) (by omega) (by push_cast; omega))
      simp [hv, h]
  case typeBlob =>
    by_cases hv : varLen = 0
    · simp [hv]
    · have h := readBytes_congr hlen pos varLen
        (fun k hk => hw (pos + k) (by omega) (by push_cast; omega))
      simp [hv, h]
  case typeTinyBlob =>
    by_cases hv : varLen = 0
    · simp [hv]
    · have h := readBytes_congr hlen pos varLen
        (fun k hk => hw (pos + k) (by omega) (by push_cast; omega))
      simp [hv, h]
  case typeMediumBlob =>
    by_cases hv : varLen = 0
    · simp [hv]
    · have h := readBytes_congr hlen pos varLen
        (fun k hk => hw (pos + k) (by omega) (by push_cast; omega))
      simp [hv, h]
  case typeLongBlob =>
    by_cases hv : varLen = 0
    · simp [hv]
    · have h := readBytes_congr hlen pos varLen
        (fun k hk => hw (pos + k) (by omega) (by push_cast; omega))
      simp [hv, h]
  case typeDate =>
    have h := readUnsignedMediumInt_congr hlen pos
      (hw pos (by omega) (by push_cast; omega))
      (hw (pos+1) (by omega) (by push_cast; omega))
      (hw (pos+2) (by omega) (by push_cast; omega))
    simp only [h]
  case typeTimestamp =>
    have h := be32_congr hlen pos (hw pos (by omega) (by push_cast; omega))
      (hw (pos+1) (by omega) (by push_cast; omega))
      (hw (pos+2) (by omega) (by push_cast; omega))
      (hw (pos+3) (by omega) (by push_cast; omega))
    simp only [readUint32, h]
  case typeDateTime =>
    by_cases hp : 0 < prec
    · rw [if_pos hp] at hw
      have hpack := packLE_congr p p' pos 5
        (fun k hk => hw (pos + k) (by omega) (by push_cast; omega))
      have hfrac := readFraction_congr hlen (pos + 5) prec
        (fun k hk => hw (pos + 5 + k) (by omega) (by push_cast; omega))
      simp only [hlen, hpack, hfrac]
    · rw [if_neg hp] at hw
      have hpack := packLE_congr p p' pos 5
        (fun k hk => hw (pos + k) (by omega) (by push_cast; omega))
      simp only [hlen, hpack, if_neg hp]
  case typeTime =>
    have hpack := packLE_congr p p' pos (3 + (prec + 1) / 2)
      (fun k hk => hw (pos + k) (by omega) (by push_cast; omega))
    dsimp only
    rw [hlen, hpack]
end GoInnodb
namespace GoInnodb
theorem map_eq_ok {α β : Type} {f : α → β} {e : Except String α} {b : β}
    (h : e.map f = .ok b) : ∃ a, e = .ok a ∧ b = f a := by
  cases e with
  | error e => simp [Except.map] at h
  | ok a =>
    refine ⟨a, rfl, ?_⟩
    simp [Except.map] at h
    exact h.symm

theorem bind_eq_ok {α β : Type} {f : α → Except String β} {e : Except String α}
    {b : β} (h : e.bind f = .ok b) : ∃ a, e = .ok a ∧ f a = .ok b := by
  cases e with
  | error e => simp [Except.bind] at h
  | ok a => exact ⟨a, rfl, h⟩

theorem colWidth_of_ok (q : List Nat) (pos : Int) (col : Column) (varLen : Nat)
    {v : Value} {br : Nat}
    (h : ParseColumn q pos col varLen = .ok (v, br)) :
    br = colReadWidth col varLen := by
  obtain ⟨nm, ct, od, len, prec, sc, nl, us, cs, pk⟩ := col
  cases ct <;>
    simp only [ParseColumn, IntParserParse, StringParserParse,
      DateTimeParserParse, colReadWidth] at h ⊢ <;>
    try (cases h)
  case typeTinyInt =>
    split at h <;> (obtain ⟨a, _, hb⟩ := map_eq_ok h; cases hb; rfl)
  case typeSmallInt =>
    split at h
    · obtain ⟨a, _, hb⟩ := map_eq_ok h; cases hb; rfl
    · split at h
      · simp_all
      · obtain ⟨a, _, hb⟩ := map_eq_ok h; cases hb; rfl
  case typeMediumInt =>
    split at h <;> (obtain ⟨a, _, hb⟩ := map_eq_ok h; cases hb; rfl)
  case typeInt =>
    split at h <;> (obtain ⟨a, _, hb⟩ := map_eq_ok h; cases hb; rfl)
  case typeBigInt =>
    split at h <;> (obtain ⟨a, _, hb⟩ := map_eq_ok h; cases hb; rfl)
  case typeYear =>
    split at h
    · obtain ⟨a, _, hb⟩ := map_eq_ok h; cases hb
      simp_all
    · split at h
      · obtain ⟨a, _, hb⟩ := map_eq_ok h
        split at hb <;> (cases hb; simp_all)
      · obtain ⟨a, _, hb⟩ := map_eq_ok h; cases hb; simp_all
  case typeBoolean =>
    obtain ⟨a, _, hb⟩ := map_eq_ok h; cases hb; rfl
  case typeBool =>
    obtain ⟨a, _, hb⟩ := map_eq_ok h; cases hb; rfl
  case typeChar =>
    split at h
    case isTrue hcond =>
      obtain ⟨a, _, hb⟩ := map_eq_ok h; cases hb
      rw [if_pos hcond]
    case isFalse hcond =>
      obtain ⟨a, _, hb⟩ := map_eq_ok h; cases hb
      rw [if_neg hcond]
  case typeVarchar =>
    split at h
    · cases h; simp_all
    · obtain ⟨a, _, hb⟩ := map_eq_ok h; cases hb; rfl
  case typeText =>
    split at h
    · cases h; simp_all
    · obtain ⟨a, _, hb⟩ := map_eq_ok h; cases hb; rfl
  case typeTinyText =>
    split at h
    · cases h; simp_all
    · obtain ⟨a, _, hb⟩ := map_eq_ok h; cases hb; rfl
  case typeMediumText =>
    split at h
    · cases h; simp_all
    · obtain ⟨a, _, hb⟩ := map_eq_ok h; cases hb; rfl
  case typeLongText =>
    split at h
    · cases h; simp_all
    · obtain ⟨a, _, hb⟩ := map_eq_ok h; cases hb; rfl
  case typeBinary =>
    obtain ⟨a, _, hb⟩ := map_eq_ok h; cases hb; rfl
  case typeVarBinary =>
    split at h
    · cases h; simp_all
    · obtain ⟨a, _, hb⟩ := map_eq_ok h; cases hb; rfl
  case typeBlob =>
    split at h
    · cases h; simp_all
    · obtain ⟨a, _, hb⟩ := map_eq_ok h; cases hb; rfl
  case typeTinyBlob =>
    split at h
    · cases h; simp_all
    · obtain ⟨a, _, hb⟩ := map_eq_ok h; cases hb; rfl
  case typeMediumBlob =>
    split at h
    · cases h; simp_all
    · obtain ⟨a, _, hb⟩ := map_eq_ok h; cases hb; rfl
  case typeLongBlob =>
    split at h
    · cases h; simp_all
    · obtain ⟨a, _, hb⟩ := map_eq_ok h; cases hb; rfl
  case typeDate =>
    obtain ⟨a, _, hb⟩ := bind_eq_ok h
    split at hb <;> (cases hb; rfl)
  case typeTimestamp =>
    obtain ⟨a, _, hb⟩ := bind_eq_ok h
    split at hb <;> (cases hb; rfl)
  case typeDateTime =>
    split at h
    · cases h
    · split at h
      · cases h
      · obtain ⟨fb, hfb, hb⟩ := map_eq_ok h
        cases hb
        split at hfb
        · obtain ⟨fr, _, hm⟩ := bind_eq_ok hfb
          obtain ⟨fs, _, hb2⟩ := map_eq_ok hm
          cases hb2
          simp_all
        · cases hfb
          simp_all
  case typeTime =>
    split at h
    · cases h
    · split at h
      · cases h
      · obtain ⟨fs, _, hb⟩ := map_eq_ok h
        cases hb
        rfl
end GoInnodb
namespace GoInnodb
variable {p p' : List Nat}

theorem parseColsLoop_mono (q : List Nat) (nc : List Column) (nb : List Bool)
    (vls : List Nat) :
    ∀ (cols : List Column) (pos : Int) (idx : Nat)
      (acc : List (String × Option Value)) {vals endPos idx'},
    parseColsLoop q nc nb vls cols pos idx acc = .ok (vals, endPos, idx') →
    pos ≤ endPos := by
  intro cols
  induction cols with
  | nil =>
    intro pos idx acc vals endPos idx' h
    simp only [parseColsLoop] at h
    cases h
    omega
  | cons col rest ih =>
    intro pos idx acc vals endPos idx' h
    simp only [parseColsLoop] at h
    split at h
    · exact ih _ _ _ h
    · split at h
      · cases h
      · have := ih _ _ _ h
        omega
end GoInnodb
namespace GoInnodb
variable {p p' : List Nat}

theorem parseVarLengthsLoop_congr (hlen : p.length = p'.length) (lo : Int)
    (hb : ∀ i : Int, i < lo → byteAt p i = byteAt p' i)
    (nc : List Column) (nb : List Bool) :
    ∀ (cols : List Column) (pos : Int) (acc : List Nat), pos ≤ lo →
    parseVarLengthsLoop p nc nb cols pos acc =
    parseVarLengthsLoop p' nc nb cols pos acc := by
  intro cols
  induction cols with
  | nil => intro pos acc _; rfl
  | cons col rest ih =>
    intro pos acc hpos
    simp only [parseVarLengthsLoop]
    by_cases hnull : (col.nullable && findNullBit nc nb col.name) = true
    · simp only [hnull, if_true]
      exact ih pos (0 :: acc) hpos
    · simp only [hnull, Bool.false_eq_true, if_false]
      by_cases h1 : pos - 1 < 0
      · simp only [h1, if_true]
      · simp only [h1, if_false]
        rw [hb (pos - 1) (by omega)]
        by_cases h2 : needsTwoByteLength col (byteAt p' (pos - 1)) = true
        · simp only [h2, if_true]
          by_cases h3 : pos - 1 - 1 < 0
          · simp only [h3, if_true]
          · simp only [h3, if_false]
            rw [hb (pos - 1 - 1) (by omega)]
            by_cases h4 : (byteAt p' (pos - 1) &&& 64 != 0) = true
            · simp only [h4, if_true]
            · simp only [h4, Bool.false_eq_true, if_false]
              exact ih (pos - 1 - 1) _ (by omega)
        · simp only [h2, Bool.false_eq_true, if_false]
          exact ih (pos - 1) _ (by omega)
end GoInnodb
namespace GoInnodb
variable {p p' : List Nat}

theorem parseNullBitmap_congr (hlen : p.length = p'.length) (lo : Int)
    (hb : ∀ i : Int, i < lo → byteAt p i = byteAt p' i)
    (headerPos : Int) (td : TableDef) (leaf : Bool) (hpos : headerPos ≤ lo) :
    parseNullBitmap p headerPos td leaf = parseNullBitmap p' headerPos td leaf := by
  unfold parseNullBitmap
  split
  · dsimp only
    rw [hlen, readSlice_congr (headerPos - (td.NullBitmapSize : Int)) td.NullBitmapSize
      (fun k hk => hb _ (by omega))]
  · rfl

theorem parseVarLengths_congr (hlen : p.length = p'.length) (lo : Int)
    (hb : ∀ i : Int, i < lo → byteAt p i = byteAt p' i)
    (headerPos nbs : Int) (td : TableDef) (leaf : Bool) (nb : List Bool)
    (hpos : headerPos - nbs ≤ lo) :
    parseVarLengths p headerPos nbs td leaf nb =
    parseVarLengths p' headerPos nbs td leaf nb := by
  unfold parseVarLengths
  split
  · exact parseVarLengthsLoop_congr hlen lo hb _ _ _ _ [] hpos
  · rfl

theorem ParseRecordHeader_congr (hlen : p.length = p'.length) (off : Int)
    (h0 : byteAt p off = byteAt p' off)
    (h1 : byteAt p (off + 1) = byteAt p' (off + 1))
    (h2 : byteAt p (off + 2) = byteAt p' (off + 2))
    (h3 : byteAt p (off + 3) = byteAt p' (off + 3))
    (h4 : byteAt p (off + 4) = byteAt p' (off + 4)) :
    ParseRecordHeader p off = ParseRecordHeader p' off := by
  unfold ParseRecordHeader be16D
  rw [hlen, h0,
    be16_congr hlen (off + 1) h1 (by rw [show off + 1 + 1 = off + 2 from by ring]; exact h2),
    be16_congr hlen (off + 3) (by rw [show off + 3 = off + 3 from rfl]; exact h3)
      (by rw [show off + 3 + 1 = off + 4 from by ring]; exact h4)]

theorem parseColsLoop_congr_below (hlen : p.length = p'.length) (lo : Int)
    (hb : ∀ i : Int, i < lo → byteAt p i = byteAt p' i)
    (nc : List Column) (nb : List Bool) (vls : List Nat) :
    ∀ (cols : List Column) (pos : Int) (idx : Nat)
      (acc : List (String × Option Value)) {vals endPos idx'},
    parseColsLoop p nc nb vls cols pos idx acc = .ok (vals, endPos, idx') →
    endPos ≤ lo →
    parseColsLoop p' nc nb vls cols pos idx acc = .ok (vals, endPos, idx') := by
  intro cols
  induction cols with
  | nil => intro pos idx acc vals endPos idx' h _; exact h
  | cons col rest ih =>
    intro pos idx acc vals endPos idx' h hle
    simp only [parseColsLoop] at h ⊢
    split at h
    · next hnull =>
      simp only [hnull, if_true]
      exact ih _ _ _ h hle
    · next hnull =>
      simp only [hnull, Bool.false_eq_true, if_false]
      split at h
      · next heq => cases h
      · next value br heq =>
        have hvw := colWidth_of_ok p pos col _ heq
        have hmono := parseColsLoop_mono p nc nb vls rest _ _ _ h
        have hcc : ParseColumn p' pos col
            (if col.IsVariableLength = true then
              if idx < vls.length then (vls.getD idx 0, idx + 1) else (0, idx)
            else (0, idx)).1 =
            .ok (value, br) := by
          rw [← ParseColumn_congr hlen pos col _
            (fun i hi1 hi2 => hb i (by omega))]
          exact heq
        rw [hcc]
        exact ih _ _ _ h hle

theorem parseColsLoop_congr_above (hlen : p.length = p'.length) (hi : Int)
    (hb : ∀ i : Int, hi ≤ i → byteAt p i = byteAt p' i)
    (nc : List Column) (nb : List Bool) (vls : List Nat) :
    ∀ (cols : List Column) (pos : Int) (idx : Nat)
      (acc : List (String × Option Value)), hi ≤ pos →
    parseColsLoop p nc nb vls cols pos idx acc =
    parseColsLoop p' nc nb vls cols pos idx acc := by
  intro cols
  induction cols with
  | nil => intro pos idx acc _; rfl
  | cons col rest ih =>
    intro pos idx acc hpos
    simp only [parseColsLoop]
    by_cases hnull : (col.nullable && findNullBit nc nb col.name) = true
    · simp only [hnull, if_true]
      exact ih _ _ _ hpos
    · simp only [hnull, Bool.false_eq_true, if_false]
      rw [ParseColumn_congr hlen pos col _ (fun i hi1 hi2 => hb i (by omega))]
      split
      · rfl
      · exact ih _ _ _ (by omega)
end GoInnodb
namespace GoInnodb
variable {p p' : List Nat}

theorem parseNullBitmap_nonneg {q : List Nat} {hp : Int} {td : TableDef}
    {leaf : Bool} {nb : List Bool} {nbs : Int}
    (h : parseNullBitmap q hp td leaf = .ok (nb, nbs)) : 0 ≤ nbs := by
  unfold parseNullBitmap at h
  split at h
  · dsimp only at h
    split at h
    · cases h
    · split at h
      · cases h
      · split at h
        · cases h
        · cases h
          positivity
  · cases h
    omega

/-- C6: decoding a clustered-index leaf record (`is_leaf` true, schema with
a primary key) consumes the primary-key columns, then skips exactly 13
bytes — the decoder's non-primary-key pass starts at the primary-key end
position plus 13 — and none of those 13 bytes influence any decoded column
value: two pages of equal length that agree everywhere except on the 13
bytes starting at the decoder's own end-of-primary-key position `s`
(as computed by `pkEndPos`, the `dataPos` reached after the primary-key
loop) produce identical decoded values. -/
theorem trx_skip_bytes_invisible (td : TableDef) (recordPos s : Int)
    (hpk : td.primaryKeys ≠ [])
    (hlen : p.length = p'.length)
    (hs : pkEndPos p recordPos td true = .ok s)
    (hw : ∀ j : Nat, j < p.length → ((j : Int) < s ∨ s + 13 ≤ (j : Int)) →
          p.getD j 0 = p'.getD j 0) :
    (ParseRecord p recordPos td true).map GenericRecord.values =
    (ParseRecord p' recordPos td true).map GenericRecord.values := by
  have hr5 : ((RecordHeaderSize : Nat) : Int) = 5 := rfl
  unfold pkEndPos at hs
  rw [hr5] at hs
  dsimp only at hs
  split at hs
  · simp at hs
  next h5 =>
  split at hs
  · simp at hs
  next header hhead =>
  split at hs
  · simp at hs
  next hsys =>
  split at hs
  · simp at hs
  next nb nbs hnb =>
  split at hs
  · simp at hs
  next vls hvl =>
  split at hs
  · simp at hs
  next pkVals dataPos1 varIdx1 hcl =>
  have hds : dataPos1 = s := by cases hs; rfl
  subst hds
  have hmono : recordPos ≤ dataPos1 :=
    parseColsLoop_mono p td.nullableColumns nb vls td.primaryKeyColumns _ _ _ hcl
  have hspos : (0 : Int) < dataPos1 := by omega
  have hnbs : 0 ≤ nbs := parseNullBitmap_nonneg hnb
  have hbyte : ∀ i : Int, (i < dataPos1 ∨ dataPos1 + 13 ≤ i) →
      byteAt p i = byteAt p' i := by
    intro i hi
    unfold byteAt
    by_cases hcase : i.toNat < p.length
    · apply hw i.toNat hcase
      rcases hi with hi | hi
      · left
        rcases le_or_lt 0 i with h0 | h0
        · rwa [Int.toNat_of_nonneg h0]
        · have h00 : i.toNat = 0 := by omega
          rw [h00]
          exact_mod_cast hspos
      · right
        have h0 : 0 ≤ i := by omega
        rwa [Int.toNat_of_nonneg h0]
    · rw [List.getD_eq_default _ _ (by omega),
          List.getD_eq_default _ _ (by rw [← hlen]; omega)]
  have hbel : ∀ i : Int, i < dataPos1 → byteAt p i = byteAt p' i :=
    fun i hi => hbyte i (Or.inl hi)
  have habv : ∀ i : Int, dataPos1 + 13 ≤ i → byteAt p i = byteAt p' i :=
    fun i hi => hbyte i (Or.inr hi)
  have hhead' : ParseRecordHeader p' (recordPos - 5) = .ok header := by
    rw [← ParseRecordHeader_congr hlen (recordPos - 5)
      (hbel _ (by omega)) (hbel _ (by omega)) (hbel _ (by omega))
      (hbel _ (by omega)) (hbel _ (by omega))]
    exact hhead
  have hnb' : parseNullBitmap p' (recordPos - 5) td true = .ok (nb, nbs) := by
    rw [← parseNullBitmap_congr hlen dataPos1 hbel (recordPos - 5) td true (by omega)]
    exact hnb
  have hvl' : parseVarLengths p' (recordPos - 5) nbs td true nb = .ok vls := by
    rw [← parseVarLengths_congr hlen dataPos1 hbel (recordPos - 5) nbs td true nb
      (by omega)]
    exact hvl
  have hcl' : parseColsLoop p' td.nullableColumns nb vls td.primaryKeyColumns
      recordPos 0 [] = .ok (pkVals, dataPos1, varIdx1) :=
    parseColsLoop_congr_below hlen dataPos1 hbel _ _ _ _ _ _ _ hcl (le_refl _)
  have hnonpk := parseColsLoop_congr_above hlen (dataPos1 + 13) habv
    td.nullableColumns nb vls (td.columns.filter (fun c => !c.isPrimaryKey))
    (dataPos1 + 13) varIdx1 pkVals (le_refl _)
  unfold ParseRecord
  rw [hr5]
  dsimp only
  rw [if_neg h5, hhead, hhead']
  dsimp only
  rw [if_neg hsys, if_neg hsys, hnb, hnb']
  dsimp only
  rw [hvl, hvl']
  dsimp only
  rw [hcl, hcl']
  dsimp only
  rw [if_neg h5]
  simp only [eq_self_iff_true, if_true]
  rw [hnonpk]
  cases hres : parseColsLoop p' td.nullableColumns nb vls
      (td.columns.filter (fun c => !c.isPrimaryKey)) (dataPos1 + 13) varIdx1 pkVals with
  | error e => rfl
  | ok r =>
    rcases r with ⟨vals, dataPos3, idx2⟩
    rfl
end GoInnodb
namespace GoInnodb

/-- The spec's S4 schema: `id INT NOT NULL PRIMARY KEY`,
`name VARCHAR(100) NULL` (utf8mb4). -/
def c6colId : Column :=
  { name := "id", type := .typeInt, length := 11, isPrimaryKey := true }

def c6colName : Column :=
  { name := "name", type := .typeVarchar, ordinal := 1, length := 100,
    nullable := true, charset := "utf8mb4" }

def c6td : TableDef :=
  { name := "users", columns := [c6colId, c6colName],
    columnMap := [("id", c6colId), ("name", c6colName)],
    primaryKeys := ["id"], nullableColumns := [c6colName],
    varLenColumns := [c6colName], primaryKeyColumns := [c6colId],
    nullableCount := 1, hasNullableColumn := true, hasVarLenColumn := true }

/-- The spec's S4 record bytes, record origin 7: varlen header `05`, NULL
bitmap `00`, 5-byte record header, then
`80 00 00 01 | 00 00 00 01 AE B3 81 00 00 00 8E 01 10 | 41 6C 69 63 65`
(id = 1, 6-byte trx id + 7-byte roll pointer, "Alice"). -/
def c6page : List Nat :=
  [0x05, 0x00, 0, 0, 0, 0, 0x20,
   0x80, 0, 0, 1,
   0, 0, 0, 1, 0xAE, 0xB3, 0x81, 0, 0, 0, 0x8E, 1, 0x10,
   0x41, 0x6C, 0x69, 0x63, 0x65]

/-- `c6page` with all 13 transaction-metadata bytes (positions 11–23)
overwritten. -/
def c6pageAlt : List Nat :=
  [0x05, 0x00, 0, 0, 0, 0, 0x20,
   0x80, 0, 0, 1,
   9, 9, 9, 9, 9, 9, 9, 9, 9, 9, 9, 9, 9,
   0x41, 0x6C, 0x69, 0x63, 0x65]

/-- C6 witness: on the S4 record the primary key ends at position 11, the
two pages agree outside `[11, 24)`, and the decoded values coincide —
`id = 1`, `name = "Alice"` — even though all 13 skipped bytes differ. -/
theorem trx_skip_bytes_invisible_witness :
    c6td.primaryKeys ≠ [] ∧
    c6page.length = c6pageAlt.length ∧
    pkEndPos c6page 7 c6td true = .ok 11 ∧
    (∀ j : Nat, j < c6page.length → ((j : Int) < 11 ∨ 11 + 13 ≤ (j : Int)) →
      c6page.getD j 0 = c6pageAlt.getD j 0) ∧
    (ParseRecord c6page 7 c6td true).map GenericRecord.values =
      (ParseRecord c6pageAlt 7 c6td true).map GenericRecord.values ∧
    (ParseRecord c6page 7 c6td true).map GenericRecord.values =
      .ok [("id", some (.int 1)), ("name", some (.str (strBytes "Alice")))] :=
  ⟨by decide, by decide, by decide, by decide,
   trx_skip_bytes_invisible c6td 7 11 (by decide) (by decide) (by decide) (by decide),
   by decide⟩

end GoInnodb
